import Mathlib

/-!
Verification of the dnd5e item data-model migration, derived-attribute and
character-aggregation code.

The development shallowly embeds the JavaScript sources:

* `src/module/data/item/tool.mjs`        (`ToolData`)
* `src/module/data/item/equipment.mjs`   (`EquipmentData`)
* `src/module/data/item/consumable.mjs`  (`ConsumableData`)
* `src/unnamed/part_001`                 (`WeaponData`)
* `src/unnamed/part_000`                 (`ActorSheet5eCharacter._prepareItems`)

Raw (pre-migration) item records are JSON-like JavaScript values; the
`static migrateData(source)` functions are modelled as functions on an
insertion-ordered association list of string-keyed fields, mirroring a plain
JavaScript object.  Post-validation items are modelled as typed structures
holding exactly the fields the modelled getters read.  The modules run in
strict mode, so `delete` on a non-configurable property is modelled as a
thrown `TypeError` (an `Except.error`).
-/

/-- A JSON-like JavaScript value, as found in raw (legacy, possibly
malformed) item records.  `undef` stands for JavaScript `undefined`; inside
an array it also stands for a hole left behind by `delete` (the two are
indistinguishable to every operation the migrations perform on them). -/
inductive JSVal where
  | undef : JSVal
  | null : JSVal
  | bool (b : Bool) : JSVal
  | num (q : ℚ) : JSVal
  | str (s : String) : JSVal
  | arr (elems : List JSVal) : JSVal
  | obj (fields : List (String × JSVal)) : JSVal

/-- A raw record / plain JavaScript object: an insertion-ordered list of
string-keyed fields. -/
abbrev Obj := List (String × JSVal)

/-- Property read `o[k]`: the first binding of `k`, or `undefined` when the
key is absent. -/
def Obj.get (o : Obj) (k : String) : JSVal :=
  match o.find? (fun p => p.1 == k) with
  | some p => p.2
  | none => (.undef)

/-- The JavaScript `k in o` test. -/
def Obj.hasKey (o : Obj) (k : String) : Bool :=
  o.any (fun p => p.1 == k)

/-- Property write `o[k] = v`: an existing key keeps its position, a new key
is appended, as in a JavaScript object. -/
def Obj.set (o : Obj) (k : String) (v : JSVal) : Obj :=
  match o with
  | [] => [(k, v)]
  | p :: rest => if p.1 == k then (k, v) :: rest else p :: Obj.set rest k v

/-- Property deletion `delete o[k]` on a plain object. -/
def Obj.del (o : Obj) (k : String) : Obj :=
  o.filter (fun p => !(p.1 == k))

/-- Property read `v.k` through an arbitrary value: only objects yield a
binding; on every other value the properties the migrations read are
`undefined` (primitives have no own data properties of these names). -/
def JSVal.pget (v : JSVal) (k : String) : JSVal :=
  match v with
  | .obj o => Obj.get o k
  | _ => (.undef)

/-- Property write `v.k = w`.  Every call site in the modelled sources is
guarded so that the receiver is an object (assignment to a property of a
primitive would throw in strict mode but is unreachable). -/
def JSVal.pset (v : JSVal) (k : String) (w : JSVal) : JSVal :=
  match v with
  | .obj o => .obj (Obj.set o k w)
  | _ => v

/-- JavaScript truthiness of a value. -/
def JSVal.truthy : JSVal → Bool
  | .undef => false
  | .null => false
  | .bool b => b
  | .num q => !(q == 0)
  | .str s => !s.toList.isEmpty
  | .arr _ => true
  | .obj _ => true

/-- `typeof v === "boolean"`. -/
def JSVal.isBool : JSVal → Bool
  | .bool _ => true
  | _ => false

/-- Strict equality test `v === lit` against a string literal. -/
def JSVal.isStr (v : JSVal) (lit : String) : Bool :=
  match v with
  | .str s => s == lit
  | _ => false

/-- `v === null`. -/
def JSVal.isNull : JSVal → Bool
  | .null => true
  | _ => false

/-- Nullish test, as used by `??=`. -/
def JSVal.nullish : JSVal → Bool
  | .undef => true
  | .null => true
  | _ => false

/-- Leading and trailing whitespace removal on a character list (the
whitespace trimming `Number(s)` performs before parsing). -/
def trimWS (cs : List Char) : List Char :=
  ((cs.dropWhile Char.isWhitespace).reverse.dropWhile Char.isWhitespace).reverse

/-- Decimal interpretation of a string by JavaScript `Number(s)`:
whitespace is trimmed, an empty remainder denotes `0`, otherwise an optional
sign followed by `digits`, `digits.digits` or `.digits`.  (Hexadecimal and
exponent literals do not occur in the migrated data and are not modelled.)
`none` stands for `NaN`. -/
def strToNum? (s : String) : Option ℚ :=
  let t := trimWS s.toList
  if t.isEmpty then some 0
  else
    let (sign, u) : ℚ × List Char :=
      match t with
      | '-' :: rest => (-1, rest)
      | '+' :: rest => (1, rest)
      | cs => (1, cs)
    let intPart := u.takeWhile (fun c => c.isDigit)
    let rest := u.dropWhile (fun c => c.isDigit)
    let digitsVal (ds : List Char) : ℚ :=
      ds.foldl (fun acc c => acc * 10 + (c.toNat - '0'.toNat : ℕ)) 0
    match rest with
    | [] => if intPart.isEmpty then none else some (sign * digitsVal intPart)
    | '.' :: frac =>
      if frac.all (fun c => c.isDigit) && !(intPart.isEmpty && frac.isEmpty) then
        some (sign * (digitsVal intPart + digitsVal frac / (10 : ℚ) ^ frac.length))
      else none
    | _ => none

/-- Foundry's `Number.isNumeric`, restricted to strings (both call sites in
the modelled sources test `typeof x === "string"` first): arrays and
`null`/`""` are rejected up front, otherwise `+n === +n`. -/
def isNumericStr (s : String) : Bool :=
  !s.toList.isEmpty && (strToNum? s).isSome

/-- `Number(s)` for a string that passed `isNumericStr`. -/
def numFromStr (s : String) : ℚ :=
  (strToNum? s).getD 0

/-!
## Migration pipeline

Each kind's `static migrateData(source)` runs the inherited
`SystemDataModel.migrateData` first and then its own kind-specific steps, in
the declared order.  The inherited generic migration is outside the modelled
sources and, per the specification's list of migration rules (§4.2), every
listed rule is one of the kind-specific steps below; it is therefore
modelled as the identity.
-/

/-- `ToolData.#migrateAbility`: an array-valued ability field is collapsed
to its first element (`source.ability = source.ability[0]`; an empty array
yields `undefined`). -/
def ToolData.migrateAbility (source : Obj) : Obj :=
  match Obj.get source "ability" with
  | .arr xs => Obj.set source "ability" (xs.headD .undef)
  | _ => source

/-- `ToolData.migrateData`. -/
def ToolData.migrateData (source : Obj) : Obj :=
  ToolData.migrateAbility source

/-- `ConsumableData` declares no `migrateData` of its own; only the
inherited generic migration (modelled as the identity) applies. -/
def ConsumableData.migrateData (source : Obj) : Obj :=
  source

/-- First statement of `EquipmentData.#migrateArmor`:
`source.armor ??= {}`. -/
def EquipmentData.armorNullishStep (source : Obj) : Obj :=
  if (Obj.get source "armor").nullish then Obj.set source "armor" (.obj []) else source

/-- Second statement of `EquipmentData.#migrateArmor`:
`if ( source.armor.type === "bonus" ) source.armor.type = "trinket"`. -/
def EquipmentData.armorBonusStep (source : Obj) : Obj :=
  if ((Obj.get source "armor").pget "type").isStr "bonus" then
    Obj.set source "armor" ((Obj.get source "armor").pset "type" (.str "trinket"))
  else source

/-- Last part of `EquipmentData.#migrateArmor`: a string-valued
`armor.dex` is coerced, `""` to `null` and a numeric-looking string to a
number. -/
def EquipmentData.armorDexStep (source : Obj) : Obj :=
  match (Obj.get source "armor").pget "dex" with
  | .str dex =>
    if dex == "" then
      Obj.set source "armor" ((Obj.get source "armor").pset "dex" .null)
    else if isNumericStr dex then
      Obj.set source "armor" ((Obj.get source "armor").pset "dex" (.num (numFromStr dex)))
    else source
  | _ => source

/-- `EquipmentData.#migrateArmor`: when an `armor` field exists, a nullish
value becomes `{}`, the deprecated category `"bonus"` becomes `"trinket"`,
and a string-valued dexterity cap is coerced; the three statements run in
source order. -/
def EquipmentData.migrateArmor (source : Obj) : Obj :=
  if !(Obj.hasKey source "armor") then source
  else
    EquipmentData.armorDexStep (EquipmentData.armorBonusStep
      (EquipmentData.armorNullishStep source))

/-- `typeof v === "string"`. -/
def JSVal.isString : JSVal → Bool
  | .str _ => true
  | _ => false

/-- Foundry's `Number.isNumeric` on a whole value: arrays, `null`, `""` are
rejected, otherwise `+n === +n` (so numbers and booleans pass, `undefined`
and plain objects coerce to `NaN` and fail). -/
def jsIsNumeric : JSVal → Bool
  | .arr _ => false
  | .null => false
  | .str s => isNumericStr s
  | .num _ => true
  | .bool _ => true
  | .undef => false
  | .obj _ => false

/-- `Number(v)` on the values that can reach the conversion sites (a string
that passed `Number.isNumeric`). -/
def jsToNumber : JSVal → ℚ
  | .str s => numFromStr s
  | .num q => q
  | .bool b => if b then 1 else 0
  | _ => 0

/-- `EquipmentData.#migrateStrength`: for a string-valued strength
requirement, `""` becomes `null` and a numeric-looking string becomes a
number; the second `if` re-reads the field, so a value just set to `null`
fails `Number.isNumeric` and stays `null`. -/
def EquipmentData.migrateStrength (source : Obj) : Obj :=
  if !(Obj.get source "strength").isString then source
  else
    let source :=
      if (Obj.get source "strength").isStr "" then Obj.set source "strength" .null else source
    if jsIsNumeric (Obj.get source "strength") then
      Obj.set source "strength" (.num (jsToNumber (Obj.get source "strength")))
    else source

/-- `#migrateProficient` (shared text in `EquipmentData` and `WeaponData`):
a boolean proficiency flag becomes its numeric 0/1 encoding. -/
def EquipmentData.migrateProficient (source : Obj) : Obj :=
  match Obj.get source "proficient" with
  | .bool b => Obj.set source "proficient" (.num (if b then 1 else 0))
  | _ => source

/-- `EquipmentData.migrateData`: armor, then strength, then proficient. -/
def EquipmentData.migrateData (source : Obj) : Obj :=
  EquipmentData.migrateProficient
    (EquipmentData.migrateStrength (EquipmentData.migrateArmor source))

/-- A property key produced by `Object.entries`: a field name on an object,
an index on an array or a string. -/
inductive PropKey where
  | s (k : String) : PropKey
  | i (n : ℕ) : PropKey

/-- `Object.entries` of an array, skipping holes (our `undef`). -/
def arrEntries : ℕ → List JSVal → List (PropKey × JSVal)
  | _, [] => []
  | i, .undef :: xs => arrEntries (i + 1) xs
  | i, x :: xs => (.i i, x) :: arrEntries (i + 1) xs

/-- `Object.entries` of a string: one single-character string per index. -/
def strEntries : ℕ → List Char → List (PropKey × JSVal)
  | _, [] => []
  | i, c :: cs => (.i i, .str (String.singleton c)) :: strEntries (i + 1) cs

/-- `Object.entries(v)`: fields of an object, indexed elements of an array
or a string, nothing for any other value. -/
def JSVal.entries : JSVal → List (PropKey × JSVal)
  | .obj o => o.map (fun p => (.s p.1, p.2))
  | .arr xs => arrEntries 0 xs
  | .str s => strEntries 0 s.toList
  | _ => []

/-- `delete v[key]` in strict mode.  Deleting a field of an object or an
element of an array succeeds (the array keeps its length and is left with a
hole, modelled as `undef`); deleting an index property of a string throws a
`TypeError`, because string index properties are non-configurable and the
module runs in strict mode.  On the remaining primitives the property is
not an own property and the delete is a no-op (`null`/`undef` receivers are
unreachable: the caller only iterates truthy values). -/
def JSVal.deleteKey (v : JSVal) (key : PropKey) : Except String JSVal :=
  match v, key with
  | .obj o, .s k => .ok (.obj (Obj.del o k))
  | .obj o, .i n => .ok (.obj (Obj.del o (toString n)))
  | .arr xs, .i n => .ok (.arr (xs.set n .undef))
  | .arr xs, .s _ => .ok (.arr xs)
  | .str _, _ => .error "TypeError: cannot delete a non-configurable string index property"
  | v, _ => .ok v

/-- One iteration of the `#migratePropertiesData` loop: an entry whose
value is not a boolean (`typeof value !== "boolean"`) is deleted from the
live properties value. -/
def delStep (v : JSVal) (e : PropKey × JSVal) : Except String JSVal :=
  if e.2.isBool then .ok v else v.deleteKey e.1

/-- `WeaponData.#migratePropertiesData`: over a snapshot of
`Object.entries(source.properties)`, every entry whose value is not a
boolean is deleted from the live `properties` value.  The JavaScript
mutates `source.properties` in place; writing the final value back to the
`properties` key models that aliasing. -/
def WeaponData.migratePropertiesData (source : Obj) : Except String Obj :=
  let props := Obj.get source "properties"
  if !props.truthy then .ok source
  else
    match props.entries.foldlM delStep props with
    | .error e => .error e
    | .ok props2 => .ok (Obj.set source "properties" props2)

/-- `WeaponData.#migrateProficient`: identical text to
`EquipmentData.#migrateProficient`. -/
def WeaponData.migrateProficient (source : Obj) : Obj :=
  match Obj.get source "proficient" with
  | .bool b => Obj.set source "proficient" (.num (if b then 1 else 0))
  | _ => source

/-- `WeaponData.#migrateWeaponType`: a `null` weapon category becomes the
default `"simpleM"`. -/
def WeaponData.migrateWeaponType (source : Obj) : Obj :=
  if (Obj.get source "weaponType").isNull then Obj.set source "weaponType" (.str "simpleM")
  else source


/-- `WeaponData.migrateData`: properties, then proficient, then weapon
type; a `TypeError` thrown while stripping properties propagates. -/
def WeaponData.migrateData (source : Obj) : Except String Obj :=
  match WeaponData.migratePropertiesData source with
  | .error e => .error e
  | .ok s => .ok (WeaponData.migrateWeaponType (WeaponData.migrateProficient s))

/-!
## Association-list lemmas for the JavaScript object model
-/

theorem Obj.get_set_self (o : Obj) (k : String) (v : JSVal) :
    Obj.get (Obj.set o k v) k = v := by
  induction o with
  | nil => simp [Obj.set, Obj.get, List.find?]
  | cons p rest ih =>
    by_cases h : p.1 == k
    · simp [Obj.set, h, Obj.get, List.find?]
    · simp only [Obj.set, h, Bool.false_eq_true, if_false]
      simpa [Obj.get, List.find?, h] using ih

theorem Obj.get_set_ne (o : Obj) (k k' : String) (v : JSVal) (h : (k == k') = false) :
    Obj.get (Obj.set o k v) k' = Obj.get o k' := by
  induction o with
  | nil => simp [Obj.set, Obj.get, List.find?, h]
  | cons p rest ih =>
    by_cases hp : p.1 == k
    · have hpk : p.1 = k := by simpa using hp
      simp [Obj.set, hp, Obj.get, List.find?, h, hpk]
    · simp only [Obj.set, hp, Bool.false_eq_true, if_false]
      by_cases hp' : p.1 == k'
      · simp [Obj.get, List.find?, hp']
      · simpa [Obj.get, List.find?, hp'] using ih

theorem Obj.hasKey_set (o : Obj) (k k' : String) (v : JSVal) :
    Obj.hasKey (Obj.set o k v) k' = (Obj.hasKey o k' || (k == k')) := by
  induction o with
  | nil => simp [Obj.set, Obj.hasKey]
  | cons p rest ih =>
    by_cases hp : p.1 == k
    · have hpk : p.1 = k := by simpa using hp
      by_cases hk' : k == k' <;> simp [Obj.set, hp, Obj.hasKey, hpk, hk']
    · simp only [Obj.set, hp, Bool.false_eq_true, if_false]
      by_cases hp' : p.1 == k'
      · simp [Obj.hasKey, hp']
      · simp [Obj.hasKey, hp'] at ih ⊢
        simp [ih]

theorem Obj.set_set_self (o : Obj) (k : String) (v w : JSVal) :
    Obj.set (Obj.set o k v) k w = Obj.set o k w := by
  induction o with
  | nil => simp [Obj.set]
  | cons p rest ih =>
    by_cases hp : p.1 == k
    · simp [Obj.set, hp]
    · simp [Obj.set, hp, ih]

theorem Obj.set_get_self (o : Obj) (k : String) (h : Obj.get o k ≠ .undef) :
    Obj.set o k (Obj.get o k) = o := by
  induction o with
  | nil => simp [Obj.get, List.find?] at h
  | cons p rest ih =>
    by_cases hp : p.1 == k
    · have hpk : p.1 = k := by simpa using hp
      simp [Obj.set, Obj.get, List.find?, hp, ← hpk]
    · simp only [Obj.get, List.find?, hp] at h ⊢
      simp only [Obj.set, hp, Bool.false_eq_true, if_false]
      rw [show (match List.find? (fun p => p.1 == k) rest with
          | some p => p.2 | none => JSVal.undef) = Obj.get rest k from rfl] at h ⊢
      rw [ih h]

theorem Obj.hasKey_of_get_ne_undef (o : Obj) (k : String) (h : Obj.get o k ≠ .undef) :
    Obj.hasKey o k = true := by
  induction o with
  | nil => simp [Obj.get, List.find?] at h
  | cons p rest ih =>
    by_cases hp : p.1 == k
    · simp [Obj.hasKey, hp]
    · simp only [Obj.get, List.find?, hp] at h
      simp only [Obj.hasKey, List.any_cons, hp, Bool.false_or]
      exact ih h

theorem Obj.hasKey_set_of_hasKey (o : Obj) (k0 k : String) (v : JSVal)
    (h : Obj.hasKey o k0 = true) : Obj.hasKey (Obj.set o k0 v) k = Obj.hasKey o k := by
  rw [Obj.hasKey_set]
  by_cases he : k0 == k
  · have : k0 = k := by simpa using he
    subst this
    simp [h]
  · simp [he]

/-- Unfolding helpers for property access on an object value. -/
theorem JSVal.pget_obj (oa : Obj) (k : String) :
    (JSVal.obj oa).pget k = Obj.get oa k := rfl

theorem JSVal.pset_obj (oa : Obj) (k : String) (w : JSVal) :
    (JSVal.obj oa).pset k w = .obj (Obj.set oa k w) := rfl

theorem JSVal.nullish_obj (oa : Obj) : (JSVal.obj oa).nullish = false := rfl

theorem JSVal.isStr_str (s lit : String) : (JSVal.str s).isStr lit = (s == lit) := rfl

/-!
## Idempotence of the equipment migration
-/

/-- A value that `#migrateArmor`'s dexterity-cap coercion leaves alone: any
non-string, or a string that is neither empty nor numeric-looking. -/
def dexNormal : JSVal → Prop
  | .str d => (d == "") = false ∧ isNumericStr d = false
  | _ => True

theorem EquipmentData.armorNullishStep_nullish (o : Obj) :
    (Obj.get (EquipmentData.armorNullishStep o) "armor").nullish = false := by
  unfold EquipmentData.armorNullishStep
  by_cases h : (Obj.get o "armor").nullish = true
  · rw [if_pos h, Obj.get_set_self]
    rfl
  · rw [if_neg h]
    simpa using h

theorem EquipmentData.armorNullishStep_eq (o : Obj)
    (h : (Obj.get o "armor").nullish = false) : EquipmentData.armorNullishStep o = o := by
  unfold EquipmentData.armorNullishStep
  rw [if_neg]
  intro hc
  rw [h] at hc
  cases hc

theorem EquipmentData.armorNullishStep_hasKey (o : Obj) (k : String)
    (h : Obj.hasKey o "armor" = true) :
    Obj.hasKey (EquipmentData.armorNullishStep o) k = Obj.hasKey o k := by
  unfold EquipmentData.armorNullishStep
  by_cases hn : (Obj.get o "armor").nullish = true
  · rw [if_pos hn, Obj.hasKey_set_of_hasKey _ _ _ _ h]
  · rw [if_neg hn]

theorem EquipmentData.armorBonusStep_notBonus (o : Obj) :
    ((Obj.get (EquipmentData.armorBonusStep o) "armor").pget "type").isStr "bonus" = false := by
  unfold EquipmentData.armorBonusStep
  by_cases hb : ((Obj.get o "armor").pget "type").isStr "bonus" = true
  · rcases ha : Obj.get o "armor" with _ | _ | b | q | s | xs | oa <;> rw [ha] at hb
    case pos.obj =>
      rw [if_pos hb, Obj.get_set_self, JSVal.pset_obj, JSVal.pget_obj, Obj.get_set_self,
        JSVal.isStr_str]
      decide
    all_goals simp [JSVal.pget, JSVal.isStr] at hb
  · rw [if_neg hb]
    simpa using hb

theorem EquipmentData.armorBonusStep_nullish (o : Obj) :
    (Obj.get (EquipmentData.armorBonusStep o) "armor").nullish
      = (Obj.get o "armor").nullish := by
  unfold EquipmentData.armorBonusStep
  by_cases hb : ((Obj.get o "armor").pget "type").isStr "bonus" = true
  · rcases ha : Obj.get o "armor" with _ | _ | b | q | s | xs | oa <;> rw [ha] at hb
    case pos.obj =>
      rw [if_pos hb, Obj.get_set_self, JSVal.pset_obj, JSVal.nullish_obj, JSVal.nullish_obj]
    all_goals simp [JSVal.pget, JSVal.isStr] at hb
  · rw [if_neg hb]

theorem EquipmentData.armorBonusStep_dex (o : Obj) :
    (Obj.get (EquipmentData.armorBonusStep o) "armor").pget "dex"
      = (Obj.get o "armor").pget "dex" := by
  unfold EquipmentData.armorBonusStep
  by_cases hb : ((Obj.get o "armor").pget "type").isStr "bonus" = true
  · rcases ha : Obj.get o "armor" with _ | _ | b | q | s | xs | oa <;> rw [ha] at hb
    case pos.obj =>
      rw [if_pos hb, Obj.get_set_self, JSVal.pset_obj, JSVal.pget_obj, JSVal.pget_obj,
        Obj.get_set_ne oa "type" "dex" _ (by decide)]
    all_goals simp [JSVal.pget, JSVal.isStr] at hb
  · rw [if_neg hb]

theorem EquipmentData.armorBonusStep_eq (o : Obj)
    (h : ((Obj.get o "armor").pget "type").isStr "bonus" = false) :
    EquipmentData.armorBonusStep o = o := by
  unfold EquipmentData.armorBonusStep
  rw [if_neg]
  intro hc
  rw [h] at hc
  cases hc

theorem EquipmentData.armorBonusStep_hasKey (o : Obj) (k : String)
    (h : Obj.hasKey o "armor" = true) :
    Obj.hasKey (EquipmentData.armorBonusStep o) k = Obj.hasKey o k := by
  unfold EquipmentData.armorBonusStep
  by_cases hb : ((Obj.get o "armor").pget "type").isStr "bonus" = true
  · rw [if_pos hb, Obj.hasKey_set_of_hasKey _ _ _ _ h]
  · rw [if_neg hb]

theorem EquipmentData.armorDexStep_str (o : Obj) (s : String)
    (hd : (Obj.get o "armor").pget "dex" = .str s) :
    EquipmentData.armorDexStep o =
      (if (s == "") = true then Obj.set o "armor" ((Obj.get o "armor").pset "dex" .null)
       else if isNumericStr s = true then
         Obj.set o "armor" ((Obj.get o "armor").pset "dex" (.num (numFromStr s)))
       else o) := by
  unfold EquipmentData.armorDexStep
  rw [hd]

theorem EquipmentData.armorDexStep_id (o : Obj)
    (hd : ∀ s : String, (Obj.get o "armor").pget "dex" ≠ .str s) :
    EquipmentData.armorDexStep o = o := by
  unfold EquipmentData.armorDexStep
  rcases h : (Obj.get o "armor").pget "dex" with _ | _ | b | q | s | xs | o2
  case str => exact absurd h (hd s)
  all_goals rfl

theorem EquipmentData.armorDexStep_dexNormal (o : Obj) :
    dexNormal ((Obj.get (EquipmentData.armorDexStep o) "armor").pget "dex") := by
  rcases hd : (Obj.get o "armor").pget "dex" with _ | _ | b | q | s | xs | o2
  case str =>
    have hd0 := hd
    rcases ha : Obj.get o "armor" with _ | _ | b | q | t | xs | oa <;> rw [ha] at hd
    case obj =>
      rw [JSVal.pget_obj] at hd
      rw [EquipmentData.armorDexStep_str o s hd0, ha]
      by_cases he : (s == "") = true
      · rw [if_pos he, JSVal.pset_obj, Obj.get_set_self, JSVal.pget_obj, Obj.get_set_self]
        exact trivial
      · by_cases hn : isNumericStr s = true
        · rw [if_neg he, if_pos hn, JSVal.pset_obj, Obj.get_set_self, JSVal.pget_obj,
            Obj.get_set_self]
          exact trivial
        · rw [if_neg he, if_neg hn, ha, JSVal.pget_obj, hd]
          exact ⟨by simpa using he, by simpa using hn⟩
    all_goals simp [JSVal.pget] at hd
  all_goals
    rw [EquipmentData.armorDexStep_id o (by rw [hd]; intro t h; cases h), hd]
    exact trivial

theorem EquipmentData.armorDexStep_type (o : Obj) :
    (Obj.get (EquipmentData.armorDexStep o) "armor").pget "type"
      = (Obj.get o "armor").pget "type" := by
  rcases hd : (Obj.get o "armor").pget "dex" with _ | _ | b | q | s | xs | o2
  case str =>
    have hd0 := hd
    rcases ha : Obj.get o "armor" with _ | _ | b | q | t | xs | oa <;> rw [ha] at hd
    case obj =>
      rw [EquipmentData.armorDexStep_str o s hd0, ha]
      by_cases he : (s == "") = true
      · rw [if_pos he, JSVal.pset_obj, Obj.get_set_self, JSVal.pget_obj, JSVal.pget_obj,
          Obj.get_set_ne oa "dex" "type" _ (by decide)]
      · by_cases hn : isNumericStr s = true
        · rw [if_neg he, if_pos hn, JSVal.pset_obj, Obj.get_set_self, JSVal.pget_obj,
            JSVal.pget_obj, Obj.get_set_ne oa "dex" "type" _ (by decide)]
        · rw [if_neg he, if_neg hn, ha]
    all_goals simp [JSVal.pget] at hd
  all_goals rw [EquipmentData.armorDexStep_id o (by rw [hd]; intro t h; cases h)]

theorem EquipmentData.armorDexStep_nullish (o : Obj) :
    (Obj.get (EquipmentData.armorDexStep o) "armor").nullish
      = (Obj.get o "armor").nullish := by
  rcases hd : (Obj.get o "armor").pget "dex" with _ | _ | b | q | s | xs | o2
  case str =>
    have hd0 := hd
    rcases ha : Obj.get o "armor" with _ | _ | b | q | t | xs | oa <;> rw [ha] at hd
    case obj =>
      rw [EquipmentData.armorDexStep_str o s hd0, ha]
      by_cases he : (s == "") = true
      · rw [if_pos he, JSVal.pset_obj, Obj.get_set_self, JSVal.nullish_obj, JSVal.nullish_obj]
      · by_cases hn : isNumericStr s = true
        · rw [if_neg he, if_pos hn, JSVal.pset_obj, Obj.get_set_self, JSVal.nullish_obj,
            JSVal.nullish_obj]
        · rw [if_neg he, if_neg hn, ha]
    all_goals simp [JSVal.pget] at hd
  all_goals rw [EquipmentData.armorDexStep_id o (by rw [hd]; intro t h; cases h)]

theorem EquipmentData.armorDexStep_eq (o : Obj)
    (h : dexNormal ((Obj.get o "armor").pget "dex")) : EquipmentData.armorDexStep o = o := by
  rcases hd : (Obj.get o "armor").pget "dex" with _ | _ | b | q | s | xs | o2
  case str =>
    rw [hd] at h
    obtain ⟨h1, h2⟩ := h
    rw [EquipmentData.armorDexStep_str o s hd, if_neg (by simp [h1]), if_neg (by simp [h2])]
  all_goals rw [EquipmentData.armorDexStep_id o (by rw [hd]; intro t h; cases h)]

theorem EquipmentData.armorDexStep_hasKey (o : Obj) (k : String)
    (h : Obj.hasKey o "armor" = true) :
    Obj.hasKey (EquipmentData.armorDexStep o) k = Obj.hasKey o k := by
  rcases hd : (Obj.get o "armor").pget "dex" with _ | _ | b | q | s | xs | o2
  case str =>
    rw [EquipmentData.armorDexStep_str o s hd]
    by_cases he : (s == "") = true
    · rw [if_pos he, Obj.hasKey_set_of_hasKey _ _ _ _ h]
    · by_cases hn : isNumericStr s = true
      · rw [if_neg he, if_pos hn, Obj.hasKey_set_of_hasKey _ _ _ _ h]
      · rw [if_neg he, if_neg hn]
  all_goals rw [EquipmentData.armorDexStep_id o (by rw [hd]; intro t h; cases h)]

/-- A record on which `#migrateArmor` is a no-op: either there is no
`armor` field, or its value is not nullish, its category is not the
deprecated `"bonus"`, and its dexterity cap needs no coercion. -/
def EquipmentData.armorNormal (o : Obj) : Prop :=
  Obj.hasKey o "armor" = true →
    ((Obj.get o "armor").nullish = false ∧
      ((Obj.get o "armor").pget "type").isStr "bonus" = false ∧
      dexNormal ((Obj.get o "armor").pget "dex"))

theorem EquipmentData.armorNormal_of_eq (x y : Obj)
    (hg : Obj.get x "armor" = Obj.get y "armor")
    (hh : Obj.hasKey x "armor" = Obj.hasKey y "armor")
    (h : EquipmentData.armorNormal y) : EquipmentData.armorNormal x := by
  unfold EquipmentData.armorNormal at h ⊢
  rw [hg, hh]
  exact h

theorem EquipmentData.migrateArmor_stable (o : Obj) (h : EquipmentData.armorNormal o) :
    EquipmentData.migrateArmor o = o := by
  unfold EquipmentData.migrateArmor
  by_cases hk : Obj.hasKey o "armor" = true
  · obtain ⟨h1, h2, h3⟩ := h hk
    rw [if_neg (by simp [hk]), EquipmentData.armorNullishStep_eq o h1,
      EquipmentData.armorBonusStep_eq o h2, EquipmentData.armorDexStep_eq o h3]
  · have hk' : Obj.hasKey o "armor" = false := by simpa using hk
    rw [if_pos (by simp [hk'])]

theorem EquipmentData.armorNormal_migrateArmor (o : Obj) :
    EquipmentData.armorNormal (EquipmentData.migrateArmor o) := by
  by_cases hk : Obj.hasKey o "armor" = true
  · have e : EquipmentData.migrateArmor o
        = EquipmentData.armorDexStep (EquipmentData.armorBonusStep
            (EquipmentData.armorNullishStep o)) := by
      unfold EquipmentData.migrateArmor
      rw [if_neg (by simp [hk])]
    rw [e]
    intro _
    refine ⟨?_, ?_, ?_⟩
    · rw [EquipmentData.armorDexStep_nullish, EquipmentData.armorBonusStep_nullish,
        EquipmentData.armorNullishStep_nullish]
    · rw [EquipmentData.armorDexStep_type]
      exact EquipmentData.armorBonusStep_notBonus _
    · exact EquipmentData.armorDexStep_dexNormal _
  · have hk' : Obj.hasKey o "armor" = false := by simpa using hk
    have e : EquipmentData.migrateArmor o = o := by
      unfold EquipmentData.migrateArmor
      rw [if_pos (by simp [hk'])]
    rw [e]
    intro hcon
    rw [hk'] at hcon
    cases hcon

theorem EquipmentData.migrateStrength_id (o : Obj)
    (h : (Obj.get o "strength").isString = false) : EquipmentData.migrateStrength o = o := by
  unfold EquipmentData.migrateStrength
  rw [if_pos (by simp [h])]

theorem EquipmentData.migrateStrength_str (o : Obj) (s : String)
    (h0 : Obj.get o "strength" = .str s) :
    EquipmentData.migrateStrength o =
      (if (s == "") = true then Obj.set o "strength" .null
       else if isNumericStr s = true then Obj.set o "strength" (.num (numFromStr s))
       else o) := by
  simp only [EquipmentData.migrateStrength]
  rw [h0, if_neg (by simp [JSVal.isString])]
  by_cases he : (s == "") = true
  · rw [if_pos (show (JSVal.str s).isStr "" = true by simp [JSVal.isStr_str, he]),
      Obj.get_set_self,
      if_neg (show ¬(jsIsNumeric JSVal.null = true) by simp [jsIsNumeric]), if_pos he]
  · rw [if_neg (show ¬((JSVal.str s).isStr "" = true) by simp [JSVal.isStr_str, he]), h0,
      if_neg he]
    by_cases hn : isNumericStr s = true
    · rw [if_pos (show jsIsNumeric (JSVal.str s) = true by simp [jsIsNumeric, hn]), if_pos hn]
      rfl
    · rw [if_neg (show ¬(jsIsNumeric (JSVal.str s) = true) by simp [jsIsNumeric, hn]),
        if_neg hn]

theorem EquipmentData.migrateStrength_stable (o : Obj)
    (h : dexNormal (Obj.get o "strength")) : EquipmentData.migrateStrength o = o := by
  rcases h0 : Obj.get o "strength" with _ | _ | b | q | s | xs | o2
  case str =>
    rw [h0] at h
    obtain ⟨h1, h2⟩ := h
    rw [EquipmentData.migrateStrength_str o s h0, if_neg (by simp [h1]), if_neg (by simp [h2])]
  all_goals rw [EquipmentData.migrateStrength_id o (by rw [h0]; rfl)]

theorem EquipmentData.strengthNormal_migrateStrength (o : Obj) :
    dexNormal (Obj.get (EquipmentData.migrateStrength o) "strength") := by
  rcases h0 : Obj.get o "strength" with _ | _ | b | q | s | xs | o2
  case str =>
    rw [EquipmentData.migrateStrength_str o s h0]
    by_cases he : (s == "") = true
    · rw [if_pos he, Obj.get_set_self]
      exact trivial
    · by_cases hn : isNumericStr s = true
      · rw [if_neg he, if_pos hn, Obj.get_set_self]
        exact trivial
      · rw [if_neg he, if_neg hn, h0]
        exact ⟨by simpa using he, by simpa using hn⟩
  all_goals
    rw [EquipmentData.migrateStrength_id o (by rw [h0]; rfl), h0]
    exact trivial

theorem EquipmentData.migrateStrength_get_ne (o : Obj) (k : String)
    (hne : ("strength" == k) = false) :
    Obj.get (EquipmentData.migrateStrength o) k = Obj.get o k := by
  rcases h0 : Obj.get o "strength" with _ | _ | b | q | s | xs | o2
  case str =>
    rw [EquipmentData.migrateStrength_str o s h0]
    by_cases he : (s == "") = true
    · rw [if_pos he, Obj.get_set_ne _ _ _ _ hne]
    · by_cases hn : isNumericStr s = true
      · rw [if_neg he, if_pos hn, Obj.get_set_ne _ _ _ _ hne]
      · rw [if_neg he, if_neg hn]
  all_goals rw [EquipmentData.migrateStrength_id o (by rw [h0]; rfl)]

theorem EquipmentData.migrateStrength_hasKey (o : Obj) (k : String) :
    Obj.hasKey (EquipmentData.migrateStrength o) k = Obj.hasKey o k := by
  rcases h0 : Obj.get o "strength" with _ | _ | b | q | s | xs | o2
  case str =>
    have hk : Obj.hasKey o "strength" = true :=
      Obj.hasKey_of_get_ne_undef o "strength" (by rw [h0]; intro hc; cases hc)
    rw [EquipmentData.migrateStrength_str o s h0]
    by_cases he : (s == "") = true
    · rw [if_pos he, Obj.hasKey_set_of_hasKey _ _ _ _ hk]
    · by_cases hn : isNumericStr s = true
      · rw [if_neg he, if_pos hn, Obj.hasKey_set_of_hasKey _ _ _ _ hk]
      · rw [if_neg he, if_neg hn]
  all_goals rw [EquipmentData.migrateStrength_id o (by rw [h0]; rfl)]

theorem EquipmentData.migrateProficient_bool (o : Obj) (b : Bool)
    (h : Obj.get o "proficient" = .bool b) :
    EquipmentData.migrateProficient o = Obj.set o "proficient" (.num (if b then 1 else 0)) := by
  unfold EquipmentData.migrateProficient
  rw [h]

theorem EquipmentData.migrateProficient_id (o : Obj)
    (h : (Obj.get o "proficient").isBool = false) : EquipmentData.migrateProficient o = o := by
  unfold EquipmentData.migrateProficient
  rcases h0 : Obj.get o "proficient" with _ | _ | b | q | s | xs | o2
  case bool => rw [h0] at h; simp [JSVal.isBool] at h
  all_goals rfl

theorem EquipmentData.proficientNormal_migrateProficient (o : Obj) :
    (Obj.get (EquipmentData.migrateProficient o) "proficient").isBool = false := by
  rcases h0 : Obj.get o "proficient" with _ | _ | b | q | s | xs | o2
  case bool =>
    rw [EquipmentData.migrateProficient_bool o b h0, Obj.get_set_self]
    rfl
  all_goals
    rw [EquipmentData.migrateProficient_id o (by rw [h0]; rfl), h0]
    rfl

theorem EquipmentData.migrateProficient_get_ne (o : Obj) (k : String)
    (hne : ("proficient" == k) = false) :
    Obj.get (EquipmentData.migrateProficient o) k = Obj.get o k := by
  rcases h0 : Obj.get o "proficient" with _ | _ | b | q | s | xs | o2
  case bool => rw [EquipmentData.migrateProficient_bool o b h0, Obj.get_set_ne _ _ _ _ hne]
  all_goals rw [EquipmentData.migrateProficient_id o (by rw [h0]; rfl)]

theorem EquipmentData.migrateProficient_hasKey (o : Obj) (k : String) :
    Obj.hasKey (EquipmentData.migrateProficient o) k = Obj.hasKey o k := by
  rcases h0 : Obj.get o "proficient" with _ | _ | b | q | s | xs | o2
  case bool =>
    have hk : Obj.hasKey o "proficient" = true :=
      Obj.hasKey_of_get_ne_undef o "proficient" (by rw [h0]; intro hc; cases hc)
    rw [EquipmentData.migrateProficient_bool o b h0, Obj.hasKey_set_of_hasKey _ _ _ _ hk]
  all_goals rw [EquipmentData.migrateProficient_id o (by rw [h0]; rfl)]

/-- Running `EquipmentData.migrateData` twice is the same as running it
once. -/
theorem EquipmentData.migrateData_equip_idem (o : Obj) :
    EquipmentData.migrateData (EquipmentData.migrateData o) = EquipmentData.migrateData o := by
  have hA1 := EquipmentData.armorNormal_migrateArmor o
  have hA2 : EquipmentData.armorNormal
      (EquipmentData.migrateStrength (EquipmentData.migrateArmor o)) :=
    EquipmentData.armorNormal_of_eq _ _
      (EquipmentData.migrateStrength_get_ne _ "armor" (by decide))
      (EquipmentData.migrateStrength_hasKey _ "armor") hA1
  have hA3 : EquipmentData.armorNormal (EquipmentData.migrateData o) :=
    EquipmentData.armorNormal_of_eq _ _
      (EquipmentData.migrateProficient_get_ne _ "armor" (by decide))
      (EquipmentData.migrateProficient_hasKey _ "armor") hA2
  have hS3 : dexNormal (Obj.get (EquipmentData.migrateData o) "strength") := by
    unfold EquipmentData.migrateData
    rw [EquipmentData.migrateProficient_get_ne _ "strength" (by decide)]
    exact EquipmentData.strengthNormal_migrateStrength _
  have hP3 : (Obj.get (EquipmentData.migrateData o) "proficient").isBool = false :=
    EquipmentData.proficientNormal_migrateProficient _
  show EquipmentData.migrateProficient (EquipmentData.migrateStrength
      (EquipmentData.migrateArmor (EquipmentData.migrateData o)))
    = EquipmentData.migrateData o
  rw [EquipmentData.migrateArmor_stable _ hA3, EquipmentData.migrateStrength_stable _ hS3,
    EquipmentData.migrateProficient_id _ hP3]

/-!
## Idempotence of the tool migration
-/

theorem ToolData.migrateAbility_arr (o : Obj) (xs : List JSVal)
    (h : Obj.get o "ability" = .arr xs) :
    ToolData.migrateAbility o = Obj.set o "ability" (xs.headD .undef) := by
  unfold ToolData.migrateAbility
  rw [h]

theorem ToolData.migrateAbility_id (o : Obj)
    (h : ∀ xs : List JSVal, Obj.get o "ability" ≠ .arr xs) : ToolData.migrateAbility o = o := by
  unfold ToolData.migrateAbility
  rcases h0 : Obj.get o "ability" with _ | _ | b | q | s | xs | o2
  case arr => exact absurd h0 (h xs)
  all_goals rfl

/-- The ability field collapses in a single pass exactly when its value is
not an array whose own first element is again an array. -/
def notNestedArray : JSVal → Bool
  | .arr (.arr _ :: _) => false
  | _ => true

/-- `ToolData.migrateData` is idempotent on every record whose ability
field is not a nested array. -/
theorem ToolData.migrateData_tool_idem (o : Obj)
    (h : notNestedArray (Obj.get o "ability") = true) :
    ToolData.migrateData (ToolData.migrateData o) = ToolData.migrateData o := by
  unfold ToolData.migrateData
  rcases h0 : Obj.get o "ability" with _ | _ | b | q | s | xs | o2
  case arr =>
    rw [ToolData.migrateAbility_arr o xs h0]
    apply ToolData.migrateAbility_id
    intro ys
    rw [Obj.get_set_self]
    rcases xs with _ | ⟨x, rest⟩
    · intro hc
      cases hc
    · show x ≠ .arr ys
      rw [h0] at h
      rcases x with _ | _ | b | q | s | xs2 | o3
      case arr => simp [notNestedArray] at h
      all_goals intro hc; cases hc
  all_goals
    rw [ToolData.migrateAbility_id o (fun xs hc => by rw [h0] at hc; cases hc)]
    exact ToolData.migrateAbility_id o (fun xs hc => by rw [h0] at hc; cases hc)

/-!
## Idempotence and totality of the weapon properties migration
-/

theorem foldlM_delStep_all_bool (es : List (PropKey × JSVal)) (v : JSVal)
    (h : ∀ e ∈ es, e.2.isBool = true) :
    es.foldlM delStep v = (Except.ok v : Except String JSVal) := by
  induction es with
  | nil => rfl
  | cons e es ih =>
    have hb : e.2.isBool = true := h e (List.mem_cons_self e es)
    simp only [List.foldlM, delStep, hb, if_true]
    exact ih (fun e' he' => h e' (List.mem_cons_of_mem e he'))

/-- The effect of the deletion loop on a plain-object properties value. -/
def objScrub (es : List (String × JSVal)) (o : Obj) : Obj :=
  es.foldl (fun acc e => if e.2.isBool then acc else Obj.del acc e.1) o

theorem foldlM_delStep_obj (es : List (String × JSVal)) (o : Obj) :
    (es.map (fun p => ((PropKey.s p.1 : PropKey), p.2))).foldlM delStep (JSVal.obj o)
      = Except.ok (JSVal.obj (objScrub es o)) := by
  induction es generalizing o with
  | nil => rfl
  | cons e es ih =>
    by_cases hb : e.2.isBool = true
    · simp only [List.map_cons, List.foldlM, delStep, hb, if_true, objScrub, List.foldl_cons]
      exact ih o
    · have hb' : e.2.isBool = false := by simpa using hb
      simp only [List.map_cons, List.foldlM, delStep, hb', Bool.false_eq_true, if_false,
        JSVal.deleteKey, objScrub, List.foldl_cons]
      exact ih (Obj.del o e.1)

theorem mem_objScrub (es : List (String × JSVal)) (o : Obj) (p : String × JSVal)
    (hp : p ∈ objScrub es o) :
    p ∈ o ∧ ∀ e ∈ es, e.2.isBool = false → (e.1 == p.1) = false := by
  induction es generalizing o with
  | nil =>
    refine ⟨hp, ?_⟩
    intro e he
    cases he
  | cons e es ih =>
    by_cases hb : e.2.isBool = true
    · simp only [objScrub, List.foldl_cons, hb, if_true] at hp
      obtain ⟨hmem, hrest⟩ := ih o hp
      refine ⟨hmem, ?_⟩
      intro e' he' hb'
      rcases List.mem_cons.mp he' with he1 | he2
      · rw [he1, hb] at hb'
        cases hb'
      · exact hrest e' he2 hb'
    · have hb' : e.2.isBool = false := by simpa using hb
      simp only [objScrub, List.foldl_cons, hb', Bool.false_eq_true, if_false] at hp
      obtain ⟨hmem, hrest⟩ := ih (Obj.del o e.1) hp
      rw [Obj.del, List.mem_filter] at hmem
      obtain ⟨hmem0, hflt⟩ := hmem
      refine ⟨hmem0, ?_⟩
      intro e' he' hbe'
      rcases List.mem_cons.mp he' with he1 | he2
      · rw [he1]
        have : (p.1 == e.1) = false := by simpa using hflt
        rcases Bool.eq_false_iff.mp this with _
        have hne : p.1 ≠ e.1 := by simpa using this
        simpa using fun hc => hne (by rw [hc])
      · exact hrest e' he2 hbe'

theorem objScrub_self_bool (o : Obj) (p : String × JSVal) (hp : p ∈ objScrub o o) :
    p.2.isBool = true := by
  obtain ⟨hmem, hall⟩ := mem_objScrub o o p hp
  by_cases hb : p.2.isBool = true
  · exact hb
  · have hb' : p.2.isBool = false := by simpa using hb
    have := hall p hmem hb'
    simp at this

/-- The effect of the deletion loop on an array properties value. -/
def arrScrub (xs : List JSVal) : List JSVal :=
  xs.map (fun x => if x.isBool then x else .undef)

theorem List.set_len_append (pre : List JSVal) (x y : JSVal) (xs : List JSVal) :
    (pre ++ x :: xs).set pre.length y = pre ++ y :: xs := by
  induction pre with
  | nil => rfl
  | cons p pre ih => simp [List.set, ih]

theorem arrScrub_cons (x : JSVal) (xs : List JSVal) :
    arrScrub (x :: xs) = (if x.isBool then x else .undef) :: arrScrub xs := rfl

theorem foldlM_delStep_arr (xs : List JSVal) (pre : List JSVal) :
    (arrEntries pre.length xs).foldlM delStep (JSVal.arr (pre ++ xs))
      = Except.ok (JSVal.arr (pre ++ arrScrub xs)) := by
  induction xs generalizing pre with
  | nil => rfl
  | cons x xs ih =>
    have hstep : ∀ z : JSVal, pre ++ z :: xs = (pre ++ [z]) ++ xs := by
      intro z
      simp
    have hscr : ∀ z : JSVal, pre ++ z :: arrScrub xs = (pre ++ [z]) ++ arrScrub xs := by
      intro z
      simp
    have hlen : ∀ z : JSVal, (pre ++ [z]).length = pre.length + 1 := by
      intro z
      simp
    rcases x with _ | _ | b | q | s | ys | o2
    case undef =>
      show (arrEntries (pre.length + 1) xs).foldlM delStep (JSVal.arr (pre ++ .undef :: xs))
        = Except.ok (JSVal.arr (pre ++ arrScrub (.undef :: xs)))
      rw [arrScrub_cons]
      simp only [JSVal.isBool, Bool.false_eq_true, if_false]
      rw [hstep JSVal.undef, hscr JSVal.undef, ← hlen JSVal.undef]
      exact ih (pre ++ [JSVal.undef])
    case bool =>
      show ((PropKey.i pre.length, JSVal.bool b) :: arrEntries (pre.length + 1) xs).foldlM
          delStep (JSVal.arr (pre ++ .bool b :: xs))
        = Except.ok (JSVal.arr (pre ++ arrScrub (.bool b :: xs)))
      rw [arrScrub_cons]
      simp only [JSVal.isBool, if_true, List.foldlM, delStep]
      rw [hstep (JSVal.bool b), hscr (JSVal.bool b), ← hlen (JSVal.bool b)]
      exact ih (pre ++ [JSVal.bool b])
    all_goals
      rw [arrScrub_cons]
      simp only [arrEntries, JSVal.isBool, Bool.false_eq_true, if_false, List.foldlM, delStep,
        JSVal.deleteKey, List.set_len_append]
      rw [hstep JSVal.undef, hscr JSVal.undef, ← hlen JSVal.undef]
      exact ih (pre ++ [JSVal.undef])

theorem mem_arrScrub (xs : List JSVal) (x : JSVal) (hx : x ∈ arrScrub xs) :
    x.isBool = true ∨ x = .undef := by
  rw [arrScrub, List.mem_map] at hx
  obtain ⟨y, _, rfl⟩ := hx
  by_cases hb : y.isBool = true
  · rw [if_pos hb]
    exact Or.inl hb
  · rw [if_neg hb]
    exact Or.inr rfl

theorem arrEntries_all_bool (xs : List JSVal) (h : ∀ x ∈ xs, x.isBool = true ∨ x = .undef) :
    ∀ n, ∀ e ∈ arrEntries n xs, e.2.isBool = true := by
  induction xs with
  | nil =>
    intro n e he
    cases he
  | cons x xs ih =>
    intro n e he
    have hx := h x (List.mem_cons_self x xs)
    have htail := fun y hy => h y (List.mem_cons_of_mem x hy)
    rcases x with _ | _ | b | q | s | ys | o2
    case undef => exact ih htail (n + 1) e he
    case bool =>
      rcases List.mem_cons.mp he with he1 | he2
      · rw [he1]
        rfl
      · exact ih htail (n + 1) e he2
    all_goals
      rcases hx with hb | hu
      · cases hb
      · cases hu

/-- A properties value on which the deletion loop is a no-op: every entry
it would visit is already boolean (and a string must be empty, since a
non-empty string makes the loop throw). -/
def propsNormalV : JSVal → Prop
  | .obj o => ∀ p ∈ o, p.2.isBool = true
  | .arr xs => ∀ x ∈ xs, x.isBool = true ∨ x = (.undef)
  | .str s => s.toList = []
  | _ => True

theorem entries_all_bool_of_normal (v : JSVal) (hv : propsNormalV v) :
    ∀ e ∈ v.entries, e.2.isBool = true := by
  rcases v with _ | _ | b | q | s | xs | o
  case str =>
    intro e he
    rw [JSVal.entries, hv] at he
    cases he
  case arr => exact arrEntries_all_bool xs hv 0
  case obj =>
    intro e he
    rw [JSVal.entries, List.mem_map] at he
    obtain ⟨p, hp, rfl⟩ := he
    exact hv p hp
  all_goals intro e he; cases he

theorem WeaponData.migratePropertiesData_stable (o : Obj)
    (h : propsNormalV (Obj.get o "properties")) :
    WeaponData.migratePropertiesData o = .ok o := by
  simp only [WeaponData.migratePropertiesData]
  by_cases ht : (Obj.get o "properties").truthy = true
  · rw [if_neg (by simp [ht]), foldlM_delStep_all_bool _ _ (entries_all_bool_of_normal _ h)]
    have hne : Obj.get o "properties" ≠ .undef := by
      intro hc
      rw [hc] at ht
      cases ht
    show Except.ok (Obj.set o "properties" (Obj.get o "properties")) = Except.ok o
    rw [Obj.set_get_self o _ hne]
  · rw [if_pos (by simpa using ht)]

theorem foldlM_delStep_str_cons (s : String) (c : Char) (cs : List Char) (i : ℕ) :
    (strEntries i (c :: cs)).foldlM delStep (JSVal.str s)
      = Except.error "TypeError: cannot delete a non-configurable string index property" := rfl

theorem WeaponData.migratePropertiesData_ok_shape (o r : Obj)
    (h : WeaponData.migratePropertiesData o = .ok r) :
    r = o ∨ ∃ v, r = Obj.set o "properties" v ∧ Obj.hasKey o "properties" = true := by
  revert h
  simp only [WeaponData.migratePropertiesData]
  by_cases ht : (Obj.get o "properties").truthy = true
  · rw [if_neg (by simp [ht])]
    rcases hf : (Obj.get o "properties").entries.foldlM delStep (Obj.get o "properties")
      with e | v
    · intro h
      cases h
    · intro h
      right
      injection h with h'
      exact ⟨v, h'.symm, Obj.hasKey_of_get_ne_undef o _ (fun hc => by rw [hc] at ht; cases ht)⟩
  · rw [if_pos (by simpa using ht)]
    intro h
    injection h with h'
    exact Or.inl h'.symm

theorem WeaponData.migratePropertiesData_ok_get_ne (o r : Obj) (k : String)
    (h : WeaponData.migratePropertiesData o = .ok r) (hne : ("properties" == k) = false) :
    Obj.get r k = Obj.get o k := by
  rcases WeaponData.migratePropertiesData_ok_shape o r h with h1 | ⟨v, h2, _⟩
  · rw [h1]
  · rw [h2, Obj.get_set_ne _ _ _ _ hne]

theorem WeaponData.migratePropertiesData_ok_normal (o r : Obj)
    (h : WeaponData.migratePropertiesData o = .ok r) :
    propsNormalV (Obj.get r "properties") := by
  revert h
  simp only [WeaponData.migratePropertiesData]
  by_cases ht : (Obj.get o "properties").truthy = true
  · rw [if_neg (by simp [ht])]
    rcases hv : Obj.get o "properties" with _ | _ | b | q | s | xs | o2
    case pos.undef => rw [hv] at ht; cases ht
    case pos.null => rw [hv] at ht; cases ht
    case pos.bool =>
      intro h
      injection h with h'
      rw [← h', Obj.get_set_self]
      exact trivial
    case pos.num =>
      intro h
      injection h with h'
      rw [← h', Obj.get_set_self]
      exact trivial
    case pos.str =>
      rcases hs : s.toList with _ | ⟨c, cs⟩
      · rw [hv] at ht
        rw [JSVal.truthy, hs] at ht
        cases ht
      · rw [show (JSVal.str s).entries = strEntries 0 s.toList from rfl, hs,
          foldlM_delStep_str_cons]
        intro h
        cases h
    case pos.arr =>
      have hfold := foldlM_delStep_arr xs []
      simp only [List.length_nil, List.nil_append] at hfold
      rw [show (JSVal.arr xs).entries = arrEntries 0 xs from rfl, hfold]
      intro h
      injection h with h'
      rw [← h', Obj.get_set_self]
      intro x hx
      exact mem_arrScrub xs x hx
    case pos.obj =>
      rw [show (JSVal.obj o2).entries
          = o2.map (fun p => ((PropKey.s p.1 : PropKey), p.2)) from rfl,
        foldlM_delStep_obj o2 o2]
      intro h
      injection h with h'
      rw [← h', Obj.get_set_self]
      intro p hp
      exact objScrub_self_bool o2 p hp
  · rw [if_pos (by simpa using ht)]
    intro h
    injection h with h'
    rw [← h']
    rcases hv : Obj.get o "properties" with _ | _ | b | q | s | xs | o2
    case neg.str =>
      rw [hv] at ht
      show s.toList = []
      rcases hs : s.toList with _ | ⟨c, cs⟩
      · rfl
      · rw [JSVal.truthy, hs] at ht
        simp at ht
    case neg.arr => rw [hv] at ht; simp [JSVal.truthy] at ht
    case neg.obj => rw [hv] at ht; simp [JSVal.truthy] at ht
    all_goals exact trivial

theorem WeaponData.migrateWeaponType_id (o : Obj)
    (h : (Obj.get o "weaponType").isNull = false) : WeaponData.migrateWeaponType o = o := by
  unfold WeaponData.migrateWeaponType
  rw [if_neg (by simp [h])]

theorem WeaponData.migrateWeaponType_notNull (o : Obj) :
    (Obj.get (WeaponData.migrateWeaponType o) "weaponType").isNull = false := by
  unfold WeaponData.migrateWeaponType
  by_cases hn : (Obj.get o "weaponType").isNull = true
  · rw [if_pos hn, Obj.get_set_self]
    rfl
  · rw [if_neg hn]
    simpa using hn

theorem WeaponData.migrateWeaponType_get_ne (o : Obj) (k : String)
    (hne : ("weaponType" == k) = false) :
    Obj.get (WeaponData.migrateWeaponType o) k = Obj.get o k := by
  unfold WeaponData.migrateWeaponType
  by_cases hn : (Obj.get o "weaponType").isNull = true
  · rw [if_pos hn, Obj.get_set_ne _ _ _ _ hne]
  · rw [if_neg hn]

theorem WeaponData.migrateProficient_eq :
    WeaponData.migrateProficient = EquipmentData.migrateProficient := rfl

/-- A successful run of `WeaponData.migrateData` is a fixed point: running
the migration again returns the same record. -/
theorem WeaponData.migrateData_weapon_idem (o r : Obj) (h : WeaponData.migrateData o = .ok r) :
    WeaponData.migrateData r = .ok r := by
  unfold WeaponData.migrateData at h
  rcases hp : WeaponData.migratePropertiesData o with e | s
  · rw [hp] at h
    cases h
  · rw [hp] at h
    injection h with h'
    have hr : r = WeaponData.migrateWeaponType (WeaponData.migrateProficient s) := h'.symm
    have hnorm : propsNormalV (Obj.get s "properties") :=
      WeaponData.migratePropertiesData_ok_normal o s hp
    have hprops : Obj.get r "properties" = Obj.get s "properties" := by
      rw [hr, WeaponData.migrateWeaponType_get_ne _ _ (by decide),
        WeaponData.migrateProficient_eq, EquipmentData.migrateProficient_get_ne _ _ (by decide)]
    have hprof : (Obj.get r "proficient").isBool = false := by
      rw [hr, WeaponData.migrateWeaponType_get_ne _ _ (by decide),
        WeaponData.migrateProficient_eq]
      exact EquipmentData.proficientNormal_migrateProficient _
    have hwt : (Obj.get r "weaponType").isNull = false := by
      rw [hr]
      exact WeaponData.migrateWeaponType_notNull _
    unfold WeaponData.migrateData
    rw [WeaponData.migratePropertiesData_stable r (by rw [hprops]; exact hnorm)]
    show Except.ok (WeaponData.migrateWeaponType (WeaponData.migrateProficient r))
      = Except.ok r
    rw [WeaponData.migrateProficient_eq, EquipmentData.migrateProficient_id r hprof,
      WeaponData.migrateWeaponType_id r hwt]

/-- Is a value a non-empty string?  That is exactly the shape of
`properties` value on which the deletion loop throws. -/
def JSVal.isNonemptyStr : JSVal → Bool
  | .str s => !s.toList.isEmpty
  | _ => false

theorem WeaponData.migratePropertiesData_isOk (o : Obj) :
    (WeaponData.migratePropertiesData o).isOk
      = !(Obj.get o "properties").isNonemptyStr := by
  simp only [WeaponData.migratePropertiesData]
  rcases hv : Obj.get o "properties" with _ | _ | b | q | s | xs | o2
  case undef => rw [if_pos (by simp [JSVal.truthy])]; rfl
  case null => rw [if_pos (by simp [JSVal.truthy])]; rfl
  case bool =>
    rcases b with _ | _
    · rw [if_pos (by simp [JSVal.truthy])]
      rfl
    · rw [if_neg (by simp [JSVal.truthy])]
      rfl
  case num =>
    by_cases hq : (q == 0) = true
    · rw [if_pos (by simp [JSVal.truthy, hq])]
      rfl
    · rw [if_neg (by simp [JSVal.truthy, hq])]
      rfl
  case str =>
    rcases hs : s.toList with _ | ⟨c, cs⟩
    · rw [if_pos (show (!(JSVal.str s).truthy) = true by
        show (!(!s.toList.isEmpty)) = true
        rw [hs]
        rfl)]
      show true = !(JSVal.str s).isNonemptyStr
      show true = !(!s.toList.isEmpty)
      rw [hs]
      rfl
    · rw [if_neg (show ¬((!(JSVal.str s).truthy) = true) by
        show ¬((!(!s.toList.isEmpty)) = true)
        rw [hs]
        simp),
        show (JSVal.str s).entries = strEntries 0 s.toList from rfl, hs,
        foldlM_delStep_str_cons]
      show false = !(JSVal.str s).isNonemptyStr
      show false = !(!s.toList.isEmpty)
      rw [hs]
      rfl
  case arr =>
    have hfold := foldlM_delStep_arr xs []
    simp only [List.length_nil, List.nil_append] at hfold
    rw [if_neg (by simp [JSVal.truthy]),
      show (JSVal.arr xs).entries = arrEntries 0 xs from rfl, hfold]
    rfl
  case obj =>
    rw [if_neg (by simp [JSVal.truthy]),
      show (JSVal.obj o2).entries
        = o2.map (fun p => ((PropKey.s p.1 : PropKey), p.2)) from rfl,
      foldlM_delStep_obj o2 o2]
    rfl

/-- `WeaponData.migrateData` returns normally exactly when the raw
`properties` field is not a non-empty string; every other malformed value
is handled without throwing. -/
theorem WeaponData.migrateData_isOk (o : Obj) :
    (WeaponData.migrateData o).isOk = !(Obj.get o "properties").isNonemptyStr := by
  have hmp := WeaponData.migratePropertiesData_isOk o
  unfold WeaponData.migrateData
  rcases hp : WeaponData.migratePropertiesData o with e | s
  · rw [hp] at hmp
    rw [← hmp]
  · rw [hp] at hmp
    rw [← hmp]
    rfl

/-!
## Post-validation data model and the derived-attribute resolver
-/

/-- Label/tag lookup in an ambient configuration table
(`CONFIG.DND5E.…[key]`): `none` models an `undefined` lookup result. -/
def lookupStr (cfg : List (String × String)) (k : String) : Option String :=
  (cfg.find? (fun p => p.1 == k)).map (fun p => p.2)

/-- `actorProfs.has(itemProf)` where `itemProf` may be `undefined`: a set of
strings never contains `undefined`. -/
def optTagIn (profs : List String) : Option String → Bool
  | some t => profs.contains t
  | none => false

/-- The ability-score modifiers `_typeAbilityMod` reads
(`actor.system.abilities`); a missing entry's modifier is read as 0 through
`?.mod ?? 0`. -/
structure AbilityScores where
  dexMod : Option ℤ
  strMod : Option ℤ
deriving DecidableEq, Repr

/-- The owning actor, as read by the derived-attribute getters: the `type`
tag, the tool-proficiency values under `system.tools` (a missing entry and
an entry with a missing `.value` are collapsed, both being read as 0
through `?.value ?? 0`), the granted proficiency tag sets
`system.traits.weaponProf.value` and `system.traits.armorProf.value`, the
`dnd5e.tavernBrawlerFeat` flag, and `system.abilities`. -/
structure Actor where
  type : String
  tools : List (String × ℚ)
  weaponProfs : List String
  armorProfs : List String
  tavernBrawlerFeat : Bool
  abilities : Option AbilityScores
deriving DecidableEq, Repr

/-- `actor.system.tools?.[key]?.value ?? 0`. -/
def Actor.toolValue (a : Actor) (key : String) : ℚ :=
  match a.tools.find? (fun p => p.1 == key) with
  | some p => p.2
  | none => 0

/-- Post-validation weapon system data: the fields read by
`WeaponData.proficiencyMultiplier`, `_typeAbilityMod` and
`chatProperties`.  `proficient` is a `NumberField` with `initial: null`, so
`Number.isFinite(this.proficient)` holds exactly when it is `some`. -/
structure WeaponData where
  weaponType : String
  baseItem : String
  properties : List (String × Bool)
  proficient : Option ℚ
deriving DecidableEq, Repr

/-- Truthiness of `this.properties.k` on the validated boolean map. -/
def WeaponData.prop (d : WeaponData) (k : String) : Bool :=
  match d.properties.find? (fun p => p.1 == k) with
  | some p => p.2
  | none => false

/-- `WeaponData.proficiencyMultiplier`: `config` is the ambient
`CONFIG.DND5E.weaponProficienciesMap` and `actor?` is `this.parent.actor`. -/
def WeaponData.proficiencyMultiplier (config : List (String × String))
    (d : WeaponData) (actor? : Option Actor) : ℚ :=
  match d.proficient with
  | some p => p
  | none =>
    match actor? with
    | none => 0
    | some actor =>
      if actor.type == "npc" then 1
      else
        let itemProf := lookupStr config d.weaponType
        let natural := d.weaponType == "natural"
        let improvised := (d.weaponType == "improv") && actor.tavernBrawlerFeat
        let isProficient := natural || improvised || optTagIn actor.weaponProfs itemProf
          || actor.weaponProfs.contains d.baseItem
        if isProficient then 1 else 0

/-- `WeaponData._typeAbilityMod`: ranged weapon categories always use
dexterity; otherwise a finesse weapon owned by an actor with ability scores
picks the larger of the dexterity and strength modifiers (ties go to
dexterity); in every remaining case `null`. -/
def WeaponData._typeAbilityMod (d : WeaponData) (actor? : Option Actor) : Option String :=
  if d.weaponType == "simpleR" || d.weaponType == "martialR" then some "dex"
  else
    match actor?.bind (fun a => a.abilities) with
    | some ab =>
      if d.prop "fin" then
        if ab.dexMod.getD 0 ≥ ab.strMod.getD 0 then some "dex" else some "str"
      else none
    | none => none

/-- `WeaponData.chatProperties`:
`[CONFIG.DND5E.weaponTypes[this.weaponType]]`. -/
def WeaponData.chatProperties (weaponTypes : List (String × String)) (d : WeaponData) :
    List (Option String) :=
  [lookupStr weaponTypes d.weaponType]

/-- One entry of the ambient `CONFIG.DND5E.armorProficienciesMap`: either
the literal `true` (always proficient, e.g. natural armor or clothing) or
a category tag string. -/
inductive ArmorProfEntry where
  | always : ArmorProfEntry
  | tag (t : String) : ArmorProfEntry
deriving DecidableEq, Repr

/-- The `armor` schema sub-object of equipment, restricted to the field its
modelled getters read. -/
structure ArmorFields where
  type : String
deriving DecidableEq, Repr

/-- Post-validation equipment system data. -/
structure EquipmentData where
  armor : ArmorFields
  baseItem : String
  stealth : Bool
  proficient : Option ℚ
deriving DecidableEq, Repr

/-- `actorProfs.has(itemProf)` for the armor map: only a tag entry can be
an element of the actor's string set (`true` and `undefined` never are). -/
def armorEntryTagIn (profs : List String) : Option ArmorProfEntry → Bool
  | some (.tag t) => profs.contains t
  | _ => false

/-- `EquipmentData.proficiencyMultiplier`: `config` is
`CONFIG.DND5E.armorProficienciesMap`. -/
def EquipmentData.proficiencyMultiplier (config : List (String × ArmorProfEntry))
    (d : EquipmentData) (actor? : Option Actor) : ℚ :=
  match d.proficient with
  | some p => p
  | none =>
    match actor? with
    | none => 0
    | some actor =>
      if actor.type == "npc" then 1
      else
        let itemProf : Option ArmorProfEntry :=
          (config.find? (fun p => p.1 == d.armor.type)).map (fun p => p.2)
        let isProficient := (itemProf == some .always)
          || armorEntryTagIn actor.armorProfs itemProf
          || actor.armorProfs.contains d.baseItem
        if isProficient then 1 else 0

/-- `EquipmentData.chatProperties`: equipment-type label, then the parent
item's armor-class label (`this.parent.labels?.armor ?? null`, a value
computed outside the modelled sources and passed in here), then the
stealth-disadvantage annotation. -/
def EquipmentData.chatProperties (equipmentTypes : List (String × String))
    (labelsArmor : Option String) (stealthLabel : String) (d : EquipmentData) :
    List (Option String) :=
  [lookupStr equipmentTypes d.armor.type,
   labelsArmor,
   if d.stealth then some stealthLabel else none]

/-- Post-validation tool system data. -/
structure ToolData where
  toolType : String
  baseItem : String
  ability : String
  proficient : Option ℚ
deriving DecidableEq, Repr

/-- `ToolData.proficiencyMultiplier`: the maximum of the owning character's
tool-proficiency values for the specific base item and for the tool
category. -/
def ToolData.proficiencyMultiplier (d : ToolData) (actor? : Option Actor) : ℚ :=
  match d.proficient with
  | some p => p
  | none =>
    match actor? with
    | none => 0
    | some actor =>
      if actor.type == "npc" then 1
      else max (actor.toolValue d.baseItem) (actor.toolValue d.toolType)

/-- `ToolData.chatProperties`:
`[CONFIG.DND5E.abilities[this.ability]?.label]`. -/
def ToolData.chatProperties (abilities : List (String × String)) (d : ToolData) :
    List (Option String) :=
  [lookupStr abilities d.ability]

/-- Post-validation consumable system data.  `hasLimitedUses` — modelled
from the spec: the limited-use capability probe inherited from
`ActivatedEffectTemplate` (whether the uses counter is active), whose
source is outside the modelled files; it is carried here as a resolved
flag. -/
structure ConsumableData where
  consumableType : String
  usesValue : ℤ
  usesMax : ℤ
  hasLimitedUses : Bool
deriving DecidableEq, Repr

/-- `ConsumableData.proficiencyMultiplier`: `1` exactly when the owning
actor carries the `dnd5e.tavernBrawlerFeat` flag
(`this.parent?.actor?.getFlag(...)`; an absent actor reads `undefined`,
which is falsy). -/
def ConsumableData.proficiencyMultiplier (d : ConsumableData) (actor? : Option Actor) : ℚ :=
  match actor? with
  | some actor => if actor.tavernBrawlerFeat then 1 else 0
  | none => 0

/-- `ConsumableData.chatProperties`: consumable-type label, then the
charge counter (`chargesLabel` is the localized `"DND5E.Charges"`). -/
def ConsumableData.chatProperties (consumableTypes : List (String × String))
    (chargesLabel : String) (d : ConsumableData) : List (Option String) :=
  [lookupStr consumableTypes d.consumableType,
   if d.hasLimitedUses then
     some (toString d.usesValue ++ "/" ++ toString d.usesMax ++ " " ++ chargesLabel)
   else none]

/-!
## Character-sheet aggregation: class/subclass pairing and level choices

Embeds the class-handling portion of
`ActorSheet5eCharacter._prepareItems`.
-/

/-- An item as seen by the pairing step: a class (name, explicit
`system.identifier`, `system.levels`), a subclass (name,
`system.classIdentifier`) or a feature (name, `system.activation?.type`,
with `""` for an absent activation type). -/
inductive SheetItem where
  | cls (name identifier : String) (levels : ℤ) : SheetItem
  | subcls (name classIdentifier : String) : SheetItem
  | feat (name activationType : String) : SheetItem
deriving DecidableEq, Repr

def SheetItem.levels : SheetItem → ℤ
  | .cls _ _ l => l
  | _ => 0

def SheetItem.name : SheetItem → String
  | .cls n _ _ => n
  | .subcls n _ => n
  | .feat n _ => n

def SheetItem.identifier : SheetItem → String
  | .cls _ i _ => i
  | _ => ""

def SheetItem.classIdentifier : SheetItem → String
  | .subcls _ i => i
  | _ => ""

/-- `item.system.activation?.type` truthiness source, `""` when absent
(class and subclass data declare no activation). -/
def SheetItem.activationType : SheetItem → String
  | .feat _ t => t
  | _ => ""

/-- Stable insertion used by the descending sort. -/
def insertByLevelDesc (x : SheetItem) : List SheetItem → List SheetItem
  | [] => [x]
  | y :: ys => if x.levels > y.levels then x :: y :: ys else y :: insertByLevelDesc x ys

/-- `classes.sort((a, b) => b.system.levels - a.system.levels)`: a stable
sort by class level, descending. -/
def sortByLevelDesc (l : List SheetItem) : List SheetItem :=
  l.foldl (fun acc x => insertByLevelDesc x acc) []

/-- Foundry's `Array#findSplice` with a predicate: removes and returns the
first matching element. -/
def findSplice (p : SheetItem → Bool) : List SheetItem → Option SheetItem × List SheetItem
  | [] => (none, [])
  | x :: xs =>
    if p x then (some x, xs)
    else
      let r := findSplice p xs
      (r.1, x :: r.2)

/-- One entry of `context.warnings` pushed for an orphaned subclass: the
data interpolated into the localized `"DND5E.SubclassMismatchWarn"`
message (`{name, class}`) together with the `type: "warning"` tag. -/
structure SheetWarning where
  name : String
  classIdentifier : String
  type : String
deriving DecidableEq, Repr

/-- Result of the pairing pass: the interleaved class list, the feature
list with unmatched subclasses appended, and the warning list. -/
structure PairedClasses where
  classes : List SheetItem
  feats : List SheetItem
  warnings : List SheetWarning
deriving DecidableEq, Repr

/-- The class/subclass pairing pass of `_prepareItems`: classes are sorted
descending by level; each class computes its identifier
(`cls.system.identifier || cls.name.slugify({strict: true})` — `slug`
models the external `slugify` helper, consulted only when the explicit
identifier is blank) and splices out the first subclass whose
`classIdentifier` matches, placing it immediately after the class; every
subclass left over is pushed onto the feature list and a non-fatal warning
naming it and its mismatched class identifier is recorded.  The pipeline
is a total function: it never aborts. -/
def pairClassesSubclasses (slug : String → String)
    (classes subclasses feats : List SheetItem) : PairedClasses :=
  let sorted := sortByLevelDesc classes
  let step := sorted.foldl
    (fun (acc : List SheetItem × List SheetItem) c =>
      let identifier := if c.identifier != "" then c.identifier else slug c.name
      match findSplice (fun s => s.classIdentifier == identifier) acc.2 with
      | (some subclass, rest) => (acc.1 ++ [c, subclass], rest)
      | (none, rest) => (acc.1 ++ [c], rest))
    (([], subclasses) : List SheetItem × List SheetItem)
  ⟨step.1, feats ++ step.2,
    step.2.map (fun s => ⟨s.name, s.classIdentifier, "warning"⟩)⟩

/-- The active/passive feature buckets. -/
structure FeatureBuckets where
  active : List SheetItem
  passive : List SheetItem
deriving DecidableEq, Repr

/-- The feature split of `_prepareItems`: a feature with a truthy
`system.activation?.type` is active, otherwise passive; each bucket keeps
the input order. -/
def splitFeatures (feats : List SheetItem) : FeatureBuckets :=
  ⟨feats.filter (fun f => f.activationType != ""),
   feats.filter (fun f => f.activationType == "")⟩

/-- One generated level option. -/
structure LevelOption where
  level : ℕ
  delta : ℤ
  disabled : Bool
deriving DecidableEq, Repr

/-- `maxLevelDelta = CONFIG.DND5E.maxLevel - this.actor.system.details.level`. -/
def maxLevelDeltaOf (maxLevel : ℕ) (charLevel : ℤ) : ℤ :=
  (maxLevel : ℤ) - charLevel

/-- `ctx.availableLevels`:
`Array.fromRange(CONFIG.DND5E.maxLevel + 1).slice(1)` produces the levels
`1 .. maxLevel`; each is annotated with `delta = level - cls.system.levels`
and disabled when `delta > maxLevelDelta`. -/
def availableLevels (maxLevel : ℕ) (maxLevelDelta : ℤ) (clsLevels : ℤ) : List LevelOption :=
  ((List.range (maxLevel + 1)).drop 1).map fun level =>
    ⟨level, (level : ℤ) - clsLevels, decide (((level : ℤ) - clsLevels) > maxLevelDelta)⟩

/-!
## Result characterizations used by the coercion claims
-/

theorem EquipmentData.armorNullishStep_get_ne (o : Obj) (k : String)
    (hne : ("armor" == k) = false) :
    Obj.get (EquipmentData.armorNullishStep o) k = Obj.get o k := by
  unfold EquipmentData.armorNullishStep
  by_cases hn : (Obj.get o "armor").nullish = true
  · rw [if_pos hn, Obj.get_set_ne _ _ _ _ hne]
  · rw [if_neg hn]

theorem EquipmentData.armorBonusStep_get_ne (o : Obj) (k : String)
    (hne : ("armor" == k) = false) :
    Obj.get (EquipmentData.armorBonusStep o) k = Obj.get o k := by
  unfold EquipmentData.armorBonusStep
  by_cases hb : ((Obj.get o "armor").pget "type").isStr "bonus" = true
  · rw [if_pos hb, Obj.get_set_ne _ _ _ _ hne]
  · rw [if_neg hb]

theorem EquipmentData.armorDexStep_get_ne (o : Obj) (k : String)
    (hne : ("armor" == k) = false) :
    Obj.get (EquipmentData.armorDexStep o) k = Obj.get o k := by
  rcases hd : (Obj.get o "armor").pget "dex" with _ | _ | b | q | s | xs | o2
  case str =>
    rw [EquipmentData.armorDexStep_str o s hd]
    by_cases he : (s == "") = true
    · rw [if_pos he, Obj.get_set_ne _ _ _ _ hne]
    · by_cases hn : isNumericStr s = true
      · rw [if_neg he, if_pos hn, Obj.get_set_ne _ _ _ _ hne]
      · rw [if_neg he, if_neg hn]
  all_goals rw [EquipmentData.armorDexStep_id o (by rw [hd]; intro u h; cases h)]

theorem EquipmentData.migrateArmor_get_ne (o : Obj) (k : String)
    (hne : ("armor" == k) = false) :
    Obj.get (EquipmentData.migrateArmor o) k = Obj.get o k := by
  unfold EquipmentData.migrateArmor
  by_cases hk : Obj.hasKey o "armor" = true
  · rw [if_neg (by simp [hk]), EquipmentData.armorDexStep_get_ne _ _ hne,
      EquipmentData.armorBonusStep_get_ne _ _ hne, EquipmentData.armorNullishStep_get_ne _ _ hne]
  · rw [if_pos (by simp [Bool.not_eq_true] at hk; simp [hk])]

theorem EquipmentData.armorDexStep_dexResult (o : Obj) :
    (Obj.get (EquipmentData.armorDexStep o) "armor").pget "dex"
      = (match (Obj.get o "armor").pget "dex" with
         | .str d =>
           if (d == "") = true then JSVal.null
           else if isNumericStr d = true then JSVal.num (numFromStr d)
           else JSVal.str d
         | v => v) := by
  rcases hd : (Obj.get o "armor").pget "dex" with _ | _ | b | q | s | xs | o2
  case str =>
    have hd0 := hd
    rcases ha : Obj.get o "armor" with _ | _ | b | q | u | xs | oa <;> rw [ha] at hd
    case obj =>
      rw [EquipmentData.armorDexStep_str o s hd0, ha]
      show _ = (if (s == "") = true then JSVal.null
        else if isNumericStr s = true then JSVal.num (numFromStr s) else JSVal.str s)
      by_cases he : (s == "") = true
      · rw [if_pos he, JSVal.pset_obj, Obj.get_set_self, JSVal.pget_obj, Obj.get_set_self,
          if_pos he]
      · by_cases hn : isNumericStr s = true
        · rw [if_neg he, if_pos hn, JSVal.pset_obj, Obj.get_set_self, JSVal.pget_obj,
            Obj.get_set_self, if_neg he, if_pos hn]
        · rw [JSVal.pget_obj] at hd
          rw [if_neg he, if_neg hn, ha, JSVal.pget_obj, hd, if_neg he, if_neg hn]
    all_goals simp [JSVal.pget] at hd
  all_goals
    rw [EquipmentData.armorDexStep_id o (by rw [hd]; intro u h; cases h), hd]

theorem EquipmentData.migrateStrength_result (o : Obj) :
    Obj.get (EquipmentData.migrateStrength o) "strength"
      = (match Obj.get o "strength" with
         | .str t =>
           if (t == "") = true then JSVal.null
           else if isNumericStr t = true then JSVal.num (numFromStr t)
           else JSVal.str t
         | v => v) := by
  rcases h0 : Obj.get o "strength" with _ | _ | b | q | s | xs | o2
  case str =>
    rw [EquipmentData.migrateStrength_str o s h0]
    show _ = (if (s == "") = true then JSVal.null
      else if isNumericStr s = true then JSVal.num (numFromStr s) else JSVal.str s)
    by_cases he : (s == "") = true
    · rw [if_pos he, Obj.get_set_self, if_pos he]
    · by_cases hn : isNumericStr s = true
      · rw [if_neg he, if_pos hn, Obj.get_set_self, if_neg he, if_pos hn]
      · rw [if_neg he, if_neg hn, h0, if_neg he, if_neg hn]
  all_goals
    rw [EquipmentData.migrateStrength_id o (by rw [h0]; rfl), h0]

/-!
## The claims
-/

/-- Claim C1, counterexample: tool migration is not idempotent as claimed.
`#migrateAbility` collapses only one array level, so a record whose
`ability` field is `[["str"]]` migrates to `["str"]` and, on a second run,
to `"str"`: the second run is not a no-op. -/
theorem tool_migrate_not_idempotent :
    ToolData.migrateData
        (ToolData.migrateData [("ability", JSVal.arr [JSVal.arr [JSVal.str "str"]])])
      ≠ ToolData.migrateData [("ability", JSVal.arr [JSVal.arr [JSVal.str "str"]])] := by
  intro h
  simp [ToolData.migrateData, ToolData.migrateAbility, Obj.get, Obj.set, List.find?] at h

/-- Claim C1 (corrected): migration is idempotent for weapon (on every
record it accepts), equipment and consumable records, and for tool records
whose `ability` field is not a nested array — the one shape on which the
single-level array collapse of `ToolData.#migrateAbility` needs two passes. -/
theorem migrateData_idempotent :
    (∀ r r' : Obj, WeaponData.migrateData r = .ok r' → WeaponData.migrateData r' = .ok r')
    ∧ (∀ r : Obj,
        EquipmentData.migrateData (EquipmentData.migrateData r) = EquipmentData.migrateData r)
    ∧ (∀ r : Obj, notNestedArray (Obj.get r "ability") = true →
        ToolData.migrateData (ToolData.migrateData r) = ToolData.migrateData r)
    ∧ (∀ r : Obj,
        ConsumableData.migrateData (ConsumableData.migrateData r)
          = ConsumableData.migrateData r) :=
  ⟨WeaponData.migrateData_weapon_idem, EquipmentData.migrateData_equip_idem, ToolData.migrateData_tool_idem,
    fun _ => rfl⟩

/-- Witness for C1's theorem at concrete records: a migrated weapon record
(whose stale non-boolean property `old` was stripped) is a fixed point,
and tool migration at a plain (non-nested) array ability is idempotent. -/
theorem migrateData_idempotent_witness :
    WeaponData.migrateData [("properties", JSVal.obj [("fin", JSVal.bool true)])]
      = Except.ok [("properties", JSVal.obj [("fin", JSVal.bool true)])]
    ∧ ToolData.migrateData (ToolData.migrateData [("ability", JSVal.arr [JSVal.str "str"])])
      = ToolData.migrateData [("ability", JSVal.arr [JSVal.str "str"])] :=
  ⟨migrateData_idempotent.1
      [("properties", JSVal.obj [("fin", JSVal.bool true), ("old", JSVal.str "legacy")])]
      [("properties", JSVal.obj [("fin", JSVal.bool true)])] (by rfl),
    migrateData_idempotent.2.2.1 [("ability", JSVal.arr [JSVal.str "str"])] (by rfl)⟩

/-- Claim C2, counterexample: weapon migration can throw.  In strict mode,
`delete source.properties[key]` on a `properties` value that is a
non-empty string attempts to delete a non-configurable string index
property and raises a `TypeError`. -/
theorem weapon_migrate_throws_on_string_properties :
    (WeaponData.migrateData [("properties", JSVal.str "x")]).isOk = false := rfl

/-- Claim C2 (corrected): equipment, tool and consumable migrations are
total functions of the raw record (their types show they cannot throw);
weapon migration, however, returns normally exactly when the raw
`properties` field is not a non-empty string — on that one malformed shape
the strict-mode delete of a string index property throws a `TypeError`
instead of degrading.  (`migrateData` itself rewrites fields in place; the
degradation of leftover invalid fields to schema defaults is performed by
later validation, outside migration.) -/
theorem migrateData_total (r : Obj) :
    (WeaponData.migrateData r).isOk = !(Obj.get r "properties").isNonemptyStr
    ∧ EquipmentData.migrateData r
      = EquipmentData.migrateProficient
          (EquipmentData.migrateStrength (EquipmentData.migrateArmor r))
    ∧ ToolData.migrateData r = ToolData.migrateAbility r
    ∧ ConsumableData.migrateData r = r :=
  ⟨WeaponData.migrateData_isOk r, rfl, rfl, rfl⟩

/-- Claim C3 (confirmed): an explicit finite per-item proficiency override
(`Number.isFinite(this.proficient)`, i.e. `proficient = some p`) is
returned unchanged by every kind that declares the field — weapon,
equipment and tool — for any configuration table and any owning-actor
state (including no owner at all).  Consumable items declare no
`proficient` field in their schema, so no consumable can carry an
override and the claim is vacuous for that kind. -/
theorem proficient_override_wins (p : ℚ) (actor? : Option Actor) :
    (∀ (config : List (String × String)) (wt bi : String) (props : List (String × Bool)),
      WeaponData.proficiencyMultiplier config ⟨wt, bi, props, some p⟩ actor? = p)
    ∧ (∀ (config : List (String × ArmorProfEntry)) (aty bi : String) (st : Bool),
      EquipmentData.proficiencyMultiplier config ⟨⟨aty⟩, bi, st, some p⟩ actor? = p)
    ∧ (∀ tt bi ab : String,
      ToolData.proficiencyMultiplier ⟨tt, bi, ab, some p⟩ actor? = p) :=
  ⟨fun _ _ _ _ => rfl, fun _ _ _ _ => rfl, fun _ _ _ => rfl⟩

/-- Claim C4, counterexample: `ConsumableData.proficiencyMultiplier` does
not return 1 for an npc owner — it ignores the actor kind and checks only
the tavern-brawler flag, so an npc without that flag gets 0. -/
theorem consumable_npc_not_proficient :
    ConsumableData.proficiencyMultiplier ⟨"potion", 0, 0, false⟩
        (some ⟨"npc", [], [], [], false, none⟩) = 0
      ∧ (0 : ℚ) ≠ 1 :=
  ⟨rfl, by norm_num⟩

/-- Claim C4 (corrected): without an override, an npc owner yields
multiplier 1 for weapon, equipment and tool items, whatever the rest of
the actor state; a consumable's multiplier instead ignores the actor kind
entirely and is 1 exactly when the owning actor carries the
`tavernBrawlerFeat` flag. -/
theorem npc_always_proficient :
    (∀ (config : List (String × String)) (wt bi : String) (props : List (String × Bool))
        (tls : List (String × ℚ)) (wp ap : List String) (tb : Bool)
        (ab : Option AbilityScores),
      WeaponData.proficiencyMultiplier config ⟨wt, bi, props, none⟩
        (some ⟨"npc", tls, wp, ap, tb, ab⟩) = 1)
    ∧ (∀ (config : List (String × ArmorProfEntry)) (aty bi : String) (st : Bool)
        (tls : List (String × ℚ)) (wp ap : List String) (tb : Bool)
        (ab : Option AbilityScores),
      EquipmentData.proficiencyMultiplier config ⟨⟨aty⟩, bi, st, none⟩
        (some ⟨"npc", tls, wp, ap, tb, ab⟩) = 1)
    ∧ (∀ (tt bi abl : String) (tls : List (String × ℚ)) (wp ap : List String) (tb : Bool)
        (ab : Option AbilityScores),
      ToolData.proficiencyMultiplier ⟨tt, bi, abl, none⟩
        (some ⟨"npc", tls, wp, ap, tb, ab⟩) = 1)
    ∧ (∀ (d : ConsumableData) (a : Actor),
      ConsumableData.proficiencyMultiplier d (some a)
        = if a.tavernBrawlerFeat then 1 else 0) :=
  ⟨fun _ _ _ _ _ _ _ _ _ => rfl, fun _ _ _ _ _ _ _ _ _ => rfl, fun _ _ _ _ _ _ _ _ => rfl,
    fun _ _ => rfl⟩

theorem optTagIn_eq_true (profs : List String) (x : Option String) :
    optTagIn profs x = true ↔ ∃ t, x = some t ∧ t ∈ profs := by
  cases x <;> simp [optTagIn]

/-- The proposition decided by the weapon tag lookup for a player-kind
owner: a natural weapon, an improvised weapon with the tavern-brawler
flag, a category tag granted by the actor, or the base item granted by the
actor. -/
def weaponTagProficient (config : List (String × String)) (a : Actor) (d : WeaponData) :
    Prop :=
  d.weaponType = "natural"
  ∨ (d.weaponType = "improv" ∧ a.tavernBrawlerFeat = true)
  ∨ (∃ t, lookupStr config d.weaponType = some t ∧ t ∈ a.weaponProfs)
  ∨ d.baseItem ∈ a.weaponProfs

theorem weaponTagProficient_iff (config : List (String × String)) (a : Actor)
    (d : WeaponData) :
    ((d.weaponType == "natural") || ((d.weaponType == "improv") && a.tavernBrawlerFeat)
        || optTagIn a.weaponProfs (lookupStr config d.weaponType)
        || a.weaponProfs.contains d.baseItem) = true
      ↔ weaponTagProficient config a d := by
  simp only [Bool.or_eq_true, Bool.and_eq_true, beq_iff_eq, optTagIn_eq_true,
    List.contains, List.elem_eq_mem, decide_eq_true_eq, weaponTagProficient]
  constructor
  · intro h
    rcases h with ((h1 | h2) | h3) | h4
    exacts [Or.inl h1, Or.inr (Or.inl h2), Or.inr (Or.inr (Or.inl h3)),
      Or.inr (Or.inr (Or.inr h4))]
  · intro h
    rcases h with h1 | h2 | h3 | h4
    exacts [Or.inl (Or.inl (Or.inl h1)), Or.inl (Or.inl (Or.inr h2)), Or.inl (Or.inr h3),
      Or.inr h4]

/-- The proposition decided by the armor tag lookup for a player-kind
owner: a category mapped to "always proficient", a category tag granted by
the actor, or the base item granted by the actor. -/
def armorTagProficient (config : List (String × ArmorProfEntry)) (a : Actor)
    (d : EquipmentData) : Prop :=
  ((config.find? (fun p => p.1 == d.armor.type)).map (fun p => p.2)
      = some ArmorProfEntry.always)
  ∨ (∃ t, (config.find? (fun p => p.1 == d.armor.type)).map (fun p => p.2)
      = some (ArmorProfEntry.tag t) ∧ t ∈ a.armorProfs)
  ∨ d.baseItem ∈ a.armorProfs

theorem armorEntryTagIn_eq_true (profs : List String) (x : Option ArmorProfEntry) :
    armorEntryTagIn profs x = true
      ↔ ∃ t, x = some (ArmorProfEntry.tag t) ∧ t ∈ profs := by
  cases x with
  | none => simp [armorEntryTagIn]
  | some e => cases e <;> simp [armorEntryTagIn]

theorem armorTagProficient_iff (config : List (String × ArmorProfEntry)) (a : Actor)
    (d : EquipmentData) :
    ((((config.find? (fun p => p.1 == d.armor.type)).map (fun p => p.2))
          == some ArmorProfEntry.always)
        || armorEntryTagIn a.armorProfs
            ((config.find? (fun p => p.1 == d.armor.type)).map (fun p => p.2))
        || a.armorProfs.contains d.baseItem) = true
      ↔ armorTagProficient config a d := by
  simp only [Bool.or_eq_true, beq_iff_eq, armorEntryTagIn_eq_true, List.contains,
    List.elem_eq_mem, decide_eq_true_eq, armorTagProficient]
  constructor
  · intro h
    rcases h with (h1 | h2) | h3
    exacts [Or.inl h1, Or.inr (Or.inl h2), Or.inr (Or.inr h3)]
  · intro h
    rcases h with h1 | h2 | h3
    exacts [Or.inl (Or.inl h1), Or.inl (Or.inr h2), Or.inr h3]

/-- Claim C5, counterexample: the tool multiplier is not confined to
`{0, 1}`.  A player character with expertise (value 2) in the tool's base
item gets multiplier 2. -/
theorem tool_multiplier_exceeds_one :
    ToolData.proficiencyMultiplier ⟨"art", "alchemist", "", none⟩
        (some ⟨"character", [("alchemist", 2)], [], [], false, none⟩) = 2
      ∧ (2 : ℚ) ≠ 0 ∧ (2 : ℚ) ≠ 1 := by
  refine ⟨?_, by norm_num, by norm_num⟩
  show (if ("character" == "npc") = true then 1
    else max ((⟨"character", [("alchemist", 2)], [], [], false, none⟩ : Actor).toolValue
        "alchemist")
      ((⟨"character", [("alchemist", 2)], [], [], false, none⟩ : Actor).toolValue "art")) = 2
  rw [if_neg (by decide)]
  show max (2 : ℚ) 0 = 2
  norm_num

/-- Claim C5 (corrected): with no override and a player-kind owner, the
weapon and equipment multipliers always land in `{0, 1}`, and are 1
exactly when a special case applies (natural weapon; improvised weapon
with the tavern-brawler flag; an armor category mapped to "always
proficient") or the granted tag sets contain the category tag or the base
item; the tool multiplier is instead the maximum of the character's
tool-proficiency values recorded for the base item and for the category
(a 0–2 half-step scale), which can exceed 1. -/
theorem player_tag_proficiency (a : Actor) (hnpc : (a.type == "npc") = false) :
    (∀ (config : List (String × String)) (d : WeaponData), d.proficient = none →
      (WeaponData.proficiencyMultiplier config d (some a) = 0
        ∨ WeaponData.proficiencyMultiplier config d (some a) = 1)
      ∧ (WeaponData.proficiencyMultiplier config d (some a) = 1
        ↔ weaponTagProficient config a d))
    ∧ (∀ (config : List (String × ArmorProfEntry)) (d : EquipmentData), d.proficient = none →
      (EquipmentData.proficiencyMultiplier config d (some a) = 0
        ∨ EquipmentData.proficiencyMultiplier config d (some a) = 1)
      ∧ (EquipmentData.proficiencyMultiplier config d (some a) = 1
        ↔ armorTagProficient config a d))
    ∧ (∀ d : ToolData, d.proficient = none →
      ToolData.proficiencyMultiplier d (some a)
        = max (a.toolValue d.baseItem) (a.toolValue d.toolType)) := by
  refine ⟨?_, ?_, ?_⟩
  · intro config d hp
    have e : WeaponData.proficiencyMultiplier config d (some a)
        = (if ((d.weaponType == "natural")
              || ((d.weaponType == "improv") && a.tavernBrawlerFeat)
              || optTagIn a.weaponProfs (lookupStr config d.weaponType)
              || a.weaponProfs.contains d.baseItem) = true then 1 else 0) := by
      simp only [WeaponData.proficiencyMultiplier, hp]
      rw [if_neg (by simp [hnpc])]
    rw [e]
    by_cases hb : ((d.weaponType == "natural")
        || ((d.weaponType == "improv") && a.tavernBrawlerFeat)
        || optTagIn a.weaponProfs (lookupStr config d.weaponType)
        || a.weaponProfs.contains d.baseItem) = true
    · rw [if_pos hb]
      exact ⟨Or.inr rfl, iff_of_true rfl ((weaponTagProficient_iff config a d).mp hb)⟩
    · rw [if_neg hb]
      refine ⟨Or.inl rfl, iff_of_false (by norm_num) ?_⟩
      intro hP
      exact hb ((weaponTagProficient_iff config a d).mpr hP)
  · intro config d hp
    have e : EquipmentData.proficiencyMultiplier config d (some a)
        = (if ((((config.find? (fun p => p.1 == d.armor.type)).map (fun p => p.2))
                == some ArmorProfEntry.always)
              || armorEntryTagIn a.armorProfs
                  ((config.find? (fun p => p.1 == d.armor.type)).map (fun p => p.2))
              || a.armorProfs.contains d.baseItem) = true then 1 else 0) := by
      simp only [EquipmentData.proficiencyMultiplier, hp]
      rw [if_neg (by simp [hnpc])]
    rw [e]
    by_cases hb : ((((config.find? (fun p => p.1 == d.armor.type)).map (fun p => p.2))
          == some ArmorProfEntry.always)
        || armorEntryTagIn a.armorProfs
            ((config.find? (fun p => p.1 == d.armor.type)).map (fun p => p.2))
        || a.armorProfs.contains d.baseItem) = true
    · rw [if_pos hb]
      exact ⟨Or.inr rfl, iff_of_true rfl ((armorTagProficient_iff config a d).mp hb)⟩
    · rw [if_neg hb]
      refine ⟨Or.inl rfl, iff_of_false (by norm_num) ?_⟩
      intro hP
      exact hb ((armorTagProficient_iff config a d).mpr hP)
  · intro d hp
    simp only [ToolData.proficiencyMultiplier, hp]
    rw [if_neg (by simp [hnpc])]

/-- Witness for C5's theorem: a natural weapon held by a player character
with empty tag sets is proficient (multiplier 1) through the special
case. -/
theorem player_tag_proficiency_witness :
    WeaponData.proficiencyMultiplier [] ⟨"natural", "", [], none⟩
        (some ⟨"character", [], [], [], false, none⟩) = 1 :=
  ((player_tag_proficiency ⟨"character", [], [], [], false, none⟩ (by decide)).1 []
      ⟨"natural", "", [], none⟩ rfl).2.mpr (Or.inl rfl)

/-- Claim C6, counterexample: after migration the armor dexterity cap can
still be a string.  A non-empty, non-numeric-looking string such as
`"abc"` falls through both coercion branches and is left unchanged. -/
theorem nonnumeric_string_survives_migration :
    (Obj.get (EquipmentData.migrateData [("armor", JSVal.obj [("dex", JSVal.str "abc")])])
        "armor").pget "dex" = JSVal.str "abc" := rfl

/-- Claim C6 (corrected): for a record with an armor object carrying a
string dexterity cap and a string strength requirement, equipment
migration coerces each field — the empty string to `null` and a
numeric-looking string to a number — but leaves any other string
unchanged, so a string value can survive migration. -/
theorem equipment_string_coercion (r a : Obj) (d t : String)
    (ha : Obj.get r "armor" = .obj a) (hd : Obj.get a "dex" = .str d)
    (ht : Obj.get r "strength" = .str t) :
    (Obj.get (EquipmentData.migrateData r) "armor").pget "dex"
      = (if (d == "") = true then JSVal.null
         else if isNumericStr d = true then JSVal.num (numFromStr d) else JSVal.str d)
    ∧ Obj.get (EquipmentData.migrateData r) "strength"
      = (if (t == "") = true then JSVal.null
         else if isNumericStr t = true then JSVal.num (numFromStr t) else JSVal.str t) := by
  have hk : Obj.hasKey r "armor" = true :=
    Obj.hasKey_of_get_ne_undef r "armor" (by rw [ha]; intro hc; cases hc)
  have e : EquipmentData.migrateArmor r
      = EquipmentData.armorDexStep (EquipmentData.armorBonusStep
          (EquipmentData.armorNullishStep r)) := by
    unfold EquipmentData.migrateArmor
    rw [if_neg (by simp [hk])]
  constructor
  · show (Obj.get (EquipmentData.migrateProficient (EquipmentData.migrateStrength
        (EquipmentData.migrateArmor r))) "armor").pget "dex" = _
    rw [EquipmentData.migrateProficient_get_ne _ _ (by decide),
      EquipmentData.migrateStrength_get_ne _ _ (by decide), e,
      EquipmentData.armorDexStep_dexResult, EquipmentData.armorBonusStep_dex,
      EquipmentData.armorNullishStep_eq r (by rw [ha]; rfl), ha, JSVal.pget_obj, hd]
  · show Obj.get (EquipmentData.migrateProficient (EquipmentData.migrateStrength
        (EquipmentData.migrateArmor r))) "strength" = _
    rw [EquipmentData.migrateProficient_get_ne _ _ (by decide),
      EquipmentData.migrateStrength_result, EquipmentData.migrateArmor_get_ne _ _ (by decide),
      ht]

/-- Witness for C6's theorem: a numeric-looking dexterity cap `"12"`
becomes a number and an empty-string strength requirement becomes
`null`. -/
theorem equipment_string_coercion_witness :
    (Obj.get (EquipmentData.migrateData
        [("armor", JSVal.obj [("dex", JSVal.str "12")]), ("strength", JSVal.str "")])
        "armor").pget "dex" = JSVal.num (numFromStr "12")
    ∧ Obj.get (EquipmentData.migrateData
        [("armor", JSVal.obj [("dex", JSVal.str "12")]), ("strength", JSVal.str "")])
        "strength" = JSVal.null := by
  obtain ⟨h1, h2⟩ := equipment_string_coercion
    [("armor", JSVal.obj [("dex", JSVal.str "12")]), ("strength", JSVal.str "")]
    [("dex", JSVal.str "12")] "12" "" rfl rfl rfl
  constructor
  · rw [h1, if_neg (by decide), if_pos (by rfl)]
  · rw [h2, if_pos (by rfl)]

/-- Claim C7, counterexample: `chatProperties` does emit `null`
placeholder entries.  A consumable without limited uses produces
`[some label, none]` — the absent charge counter appears as a `null`
entry in the array instead of being omitted. -/
theorem chatProperties_null_placeholder :
    ((ConsumableData.chatProperties [("potion", "Potion")] "Charges"
        ⟨"potion", 0, 0, false⟩).contains none) = true := rfl

/-- Claim C7 (corrected): each getter returns a fixed-length array in the
declared precedence — primary category label first, then the secondary
trait labels — in which an absent value is emitted as a `null` placeholder
rather than omitted; it is only after the consumer filters those
placeholders out (`reduceOption`) that the list is the category label
followed by the secondary labels with absent values omitted, in order. -/
theorem chatProperties_order (cfg : List (String × String)) (lbl : String) :
    (∀ d : ConsumableData,
      (ConsumableData.chatProperties cfg lbl d).reduceOption
        = (lookupStr cfg d.consumableType).toList
          ++ (if d.hasLimitedUses then
                [toString d.usesValue ++ "/" ++ toString d.usesMax ++ " " ++ lbl]
              else []))
    ∧ (∀ (labelsArmor : Option String) (d : EquipmentData),
      (EquipmentData.chatProperties cfg labelsArmor lbl d).reduceOption
        = (lookupStr cfg d.armor.type).toList ++ labelsArmor.toList
          ++ (if d.stealth then [lbl] else []))
    ∧ (∀ d : ToolData,
      (ToolData.chatProperties cfg d).reduceOption = (lookupStr cfg d.ability).toList) := by
  refine ⟨?_, ?_, ?_⟩
  · intro d
    unfold ConsumableData.chatProperties
    cases lookupStr cfg d.consumableType <;> cases hu : d.hasLimitedUses <;>
      simp [List.reduceOption]
  · intro labelsArmor d
    unfold EquipmentData.chatProperties
    cases lookupStr cfg d.armor.type <;> cases labelsArmor <;> cases hs : d.stealth <;>
      simp [List.reduceOption]
  · intro d
    unfold ToolData.chatProperties
    cases lookupStr cfg d.ability <;> simp [List.reduceOption]

/-- Claim C8 (confirmed): with classes `A{fighter, 5}`, `B{wizard, 3}` and
subclasses `S1{parent fighter}`, `S2{parent rogue}`, the pairing step
produces the ordered class bucket `[A, S1, B]`, routes `S2` to the passive
feature bucket, and records one non-fatal warning whose class identifier
is `"rogue"`; being a total function, the pass completes for any `slug`
helper. -/
theorem class_subclass_pairing_example (slug : String → String) :
    (pairClassesSubclasses slug
        [.cls "Fighter" "fighter" 5, .cls "Wizard" "wizard" 3]
        [.subcls "Champion" "fighter", .subcls "Assassin" "rogue"] []).classes
      = [.cls "Fighter" "fighter" 5, .subcls "Champion" "fighter", .cls "Wizard" "wizard" 3]
    ∧ (splitFeatures (pairClassesSubclasses slug
        [.cls "Fighter" "fighter" 5, .cls "Wizard" "wizard" 3]
        [.subcls "Champion" "fighter", .subcls "Assassin" "rogue"] []).feats).passive
      = [.subcls "Assassin" "rogue"]
    ∧ (splitFeatures (pairClassesSubclasses slug
        [.cls "Fighter" "fighter" 5, .cls "Wizard" "wizard" 3]
        [.subcls "Champion" "fighter", .subcls "Assassin" "rogue"] []).feats).active = []
    ∧ (pairClassesSubclasses slug
        [.cls "Fighter" "fighter" 5, .cls "Wizard" "wizard" 3]
        [.subcls "Champion" "fighter", .subcls "Assassin" "rogue"] []).warnings
      = [⟨"Assassin", "rogue", "warning"⟩]
    ∧ ((pairClassesSubclasses slug
        [.cls "Fighter" "fighter" 5, .cls "Wizard" "wizard" 3]
        [.subcls "Champion" "fighter", .subcls "Assassin" "rogue"] []).warnings.map
          (fun w => w.classIdentifier)) = ["rogue"] :=
  ⟨rfl, rfl, rfl, rfl, rfl⟩

/-- Claim C9, counterexample: the generated level options do not start at
level 4 — the code takes `Array.fromRange(maxLevel + 1).slice(1)`, i.e.
levels 1 through 20, so there are 20 options (not 17) and the first one is
level 1 with delta −2. -/
theorem level_options_do_not_start_at_four :
    ((availableLevels 20 (maxLevelDeltaOf 20 15) 3).map (fun o => o.level)
        ≠ (List.range 21).drop 4)
    ∧ (availableLevels 20 (maxLevelDeltaOf 20 15) 3).length = 20
    ∧ (availableLevels 20 (maxLevelDeltaOf 20 15) 3).head? = some ⟨1, -2, false⟩ := by
  refine ⟨by decide, by decide, by decide⟩

/-- Claim C9 (corrected): with global max level 20, character total level
15 and a class at level 3, the level-choice annotation generates the
options for levels 1 through 20 with deltas −2 through 17, and an option
is disabled exactly when its delta exceeds 5 (the max level minus the
character's total level). -/
theorem level_options_example :
    ((availableLevels 20 (maxLevelDeltaOf 20 15) 3).map (fun o => o.level)
        = List.range' 1 20)
    ∧ ((availableLevels 20 (maxLevelDeltaOf 20 15) 3).map (fun o => o.delta)
        = [-2, -1, 0, 1, 2, 3, 4, 5, 6, 7, 8, 9, 10, 11, 12, 13, 14, 15, 16, 17])
    ∧ ((availableLevels 20 (maxLevelDeltaOf 20 15) 3).all
        (fun o => o.disabled == decide (o.delta > 5))) = true
    ∧ ((availableLevels 20 (maxLevelDeltaOf 20 15) 3).map (fun o => o.disabled)
        = [false, false, false, false, false, false, false, false,
           true, true, true, true, true, true, true, true, true, true, true, true]) := by
  refine ⟨by decide, by decide, by decide, by decide⟩

/-- Claim C10 (confirmed): `_typeAbilityMod` is `"dex"` for the ranged
weapon categories; otherwise, when the finesse property is set and the
owning actor exposes ability scores, it is `"dex"` exactly when the
dexterity modifier is at least the strength modifier (missing modifiers
reading as 0) and `"str"` otherwise; in every remaining case it is
`null`. -/
theorem weapon_typeAbilityMod_spec (d : WeaponData) (actor? : Option Actor) :
    ((d.weaponType = "simpleR" ∨ d.weaponType = "martialR") →
      WeaponData._typeAbilityMod d actor? = some "dex")
    ∧ (d.weaponType ≠ "simpleR" → d.weaponType ≠ "martialR" →
      ∀ ab : AbilityScores, actor?.bind (fun a => a.abilities) = some ab →
        d.prop "fin" = true →
        WeaponData._typeAbilityMod d actor?
          = (if ab.dexMod.getD 0 ≥ ab.strMod.getD 0 then some "dex" else some "str"))
    ∧ (d.weaponType ≠ "simpleR" → d.weaponType ≠ "martialR" →
      (actor?.bind (fun a => a.abilities) = none ∨ d.prop "fin" = false) →
      WeaponData._typeAbilityMod d actor? = none) := by
  refine ⟨?_, ?_, ?_⟩
  · intro h
    unfold WeaponData._typeAbilityMod
    rw [if_pos (by rcases h with h | h <;> simp [h])]
  · intro h1 h2 ab hab hfin
    unfold WeaponData._typeAbilityMod
    rw [if_neg (by simp [h1, h2]), hab]
    show (if d.prop "fin" = true then
        (if ab.dexMod.getD 0 ≥ ab.strMod.getD 0 then some "dex" else some "str")
      else none) = _
    rw [if_pos hfin]
  · intro h1 h2 h3
    unfold WeaponData._typeAbilityMod
    rw [if_neg (by simp [h1, h2])]
    rcases h3 with h3 | h3
    · rw [h3]
    · rcases hab : actor?.bind (fun a => a.abilities) with _ | ab
      · rfl
      · show (if d.prop "fin" = true then
            (if ab.dexMod.getD 0 ≥ ab.strMod.getD 0 then some "dex" else some "str")
          else none) = none
        rw [if_neg (by simp [h3])]

/-- Witness for C10's theorem: a martial ranged weapon uses dexterity even
unowned; a finesse melee weapon whose owner has dex modifier 3 and str
modifier 1 uses dexterity; a plain melee weapon with no owner has no
derived ability. -/
theorem weapon_typeAbilityMod_spec_witness :
    WeaponData._typeAbilityMod ⟨"martialR", "", [], none⟩ none = some "dex"
    ∧ WeaponData._typeAbilityMod ⟨"simpleM", "", [("fin", true)], none⟩
        (some ⟨"character", [], [], [], false, some ⟨some 3, some 1⟩⟩) = some "dex"
    ∧ WeaponData._typeAbilityMod ⟨"simpleM", "", [], none⟩ none = none := by
  refine ⟨(weapon_typeAbilityMod_spec _ _).1 (Or.inr rfl), ?_, ?_⟩
  · have h := (weapon_typeAbilityMod_spec ⟨"simpleM", "", [("fin", true)], none⟩
        (some ⟨"character", [], [], [], false, some ⟨some 3, some 1⟩⟩)).2.1
        (by decide) (by decide) ⟨some 3, some 1⟩ rfl rfl
    rw [h, if_pos (by decide)]
  · exact (weapon_typeAbilityMod_spec _ _).2.2 (by decide) (by decide) (Or.inl rfl)
